import Mathlib

/-!
A shallow embedding of the HypeFinder scoring core (ticker extraction and
validation, text normalization, volume scoring, keyword sentiment scoring,
and the hype-score combiner), together with theorems checking the
natural-language specification against it.

Modelling conventions:
* Python strings are `String`/`List Char`; indexing and slicing are by code
  point, matching Python semantics (texts are treated at ASCII scope:
  `str.upper`/`str.lower`/`isalpha` are modelled by the corresponding ASCII
  `Char` operations).
* Python floats are modelled as exact arithmetic: `ℚ` wherever the source
  only adds, multiplies, divides and compares, and `ℝ` where `math.exp`,
  `math.pow` with real exponent, or `** 0.5` (square root) enter.
* Python dicts are association lists (`List (key × value)`) in insertion
  order, which is the iteration order of Python dicts.  Python `set`s have
  a hash-dependent iteration order; they are modelled by order-preserving
  deduplication, and no theorem below depends on that choice of order.
* External code that is not part of this repository (Python stdlib
  `html.unescape` and `datetime.fromisoformat`, and the third-party
  TextBlob sentiment model, plus the ticker list loaded from a data file)
  is abstracted into an `ExtDeps` record of parameters; all theorems quantify
  over it unless a concrete instance is exhibited.
* Character-scanning loops are written with an explicit fuel argument that
  callers instantiate with `length + 1`; every scanner consumes at least
  one character per step, so this fuel is always sufficient.
* The regular expressions used by the source are hand-translated into
  dedicated scanners implementing Python `re` semantics (leftmost match,
  greedy quantifiers with backtracking, non-overlapping `findall`/`sub`);
  each scanner's comment records the regex it implements.
-/

/-! ### Python string primitives (`src/parser/text_cleaner.py` support) -/

/-- The character class `[A-Z]` (by code point). -/
def isUpperAZ (c : Char) : Bool := decide (65 ≤ c.toNat) && decide (c.toNat ≤ 90)

/-- The character class `[a-z]` (by code point). -/
def isLowerAZ (c : Char) : Bool := decide (97 ≤ c.toNat) && decide (c.toNat ≤ 122)

/-- Python `str.isalpha` at ASCII scope. -/
def isAlphaChar (c : Char) : Bool := isUpperAZ c || isLowerAZ c

/-- ASCII uppercasing of one character (Python `str.upper`). -/
def pyToUpper (c : Char) : Char := if isLowerAZ c then Char.ofNat (c.toNat - 32) else c

/-- ASCII lowercasing of one character (Python `str.lower`). -/
def pyToLower (c : Char) : Char := if isUpperAZ c then Char.ofNat (c.toNat + 32) else c

/-- Python `str.upper()` at ASCII scope. -/
def pyUpper (s : List Char) : List Char := s.map pyToUpper

/-- Python `str.lower()` at ASCII scope. -/
def pyLower (s : List Char) : List Char := s.map pyToLower

/-- Python `\s` (ASCII whitespace, as used by `str.split`/`str.strip` too). -/
def isSpaceChar (c : Char) : Bool :=
  c == ' ' || c == '\t' || c == '\n' || c == '\r' || c == '\x0b' || c == '\x0c'

/-- Python regex `\w`: `[A-Za-z0-9_]`. -/
def isWordChar (c : Char) : Bool := c.isAlphanum || c == '_'

/-- The character class `[0-9]`. -/
def isDigitChar (c : Char) : Bool := c.isDigit

/-- Python `str.strip()`. -/
def pyStrip (s : List Char) : List Char :=
  ((s.dropWhile isSpaceChar).reverse.dropWhile isSpaceChar).reverse

/-- Python `str.split()` (split on whitespace runs, discarding empties). -/
def pySplitF : Nat → List Char → List (List Char)
  | 0, _ => []
  | _, [] => []
  | fuel+1, c :: rest =>
    if isSpaceChar c then pySplitF fuel rest
    else (c :: rest.takeWhile (fun d => !isSpaceChar d)) ::
         pySplitF fuel (rest.dropWhile (fun d => !isSpaceChar d))

def pySplit (s : List Char) : List (List Char) := pySplitF (s.length + 1) s

/-- Whether a Python regex word boundary `\b` stands between two adjacent
characters (`none` = out of range, which counts as a non-word character). -/
def isBoundary (prev cur : Option Char) : Bool :=
  (match prev with | some c => isWordChar c | none => false) !=
  (match cur with | some c => isWordChar c | none => false)

/-- Whether the character just after a letter run (if any) is a non-word
character, i.e. whether `\b` holds right after the run. -/
def boundaryAfterAt (s : List Char) (n : Nat) : Bool :=
  match s.get? n with
  | some d => !isWordChar d
  | none => true

/-! ### TextCleaner regex scanners (`src/parser/text_cleaner.py`) -/

/-- `excessive_whitespace.sub(' ', text)`: the regex `\s+` replaced by a
single space. -/
def collapseWsF : Nat → List Char → List Char
  | 0, s => s
  | _, [] => []
  | fuel+1, c :: rest =>
    if isSpaceChar c then ' ' :: collapseWsF fuel (rest.dropWhile isSpaceChar)
    else c :: collapseWsF fuel rest

def collapseWs (s : List Char) : List Char := collapseWsF (s.length + 1) s

/-- Character class of the URL regex body
`(?:[a-zA-Z]|[0-9]|[$-_@.&+]|[!*\\(\\),]|(?:%[0-9a-fA-F][0-9a-fA-F]))`.
`[$-_@.&+]` is the range U+0024..U+005F plus `@.&+`; a `%` is matched by
that range before the `%xx` alternative is ever tried, so the class is the
union below. -/
def isUrlChar (c : Char) : Bool :=
  c.isAlphanum || ('$' ≤ c && c ≤ '_') ||
  c == '!' || c == '*' || c == '\\' || c == '(' || c == ')' || c == ','

/-- Length of a match of `url_pattern` = `http[s]?://(?:URLCHAR)+` starting
at the head of `s` (greedy: `https://` is preferred over `http://`). -/
def urlMatchLen (s : List Char) : Option Nat :=
  let try1 : List Char → Option Nat := fun p =>
    if p.isPrefixOf s then
      let run := (s.drop p.length).takeWhile isUrlChar
      if run.length ≥ 1 then some (p.length + run.length) else none
    else none
  match try1 "https://".data with
  | some n => some n
  | none => try1 "http://".data

/-- `url_pattern.sub('', text)`. -/
def stripUrlsF : Nat → List Char → List Char
  | 0, s => s
  | _, [] => []
  | fuel+1, c :: rest =>
    match urlMatchLen (c :: rest) with
    | some n => stripUrlsF fuel ((c :: rest).drop n)
    | none => c :: stripUrlsF fuel rest

def stripUrls (s : List Char) : List Char := stripUrlsF (s.length + 1) s

/-- `mention_pattern.sub('', text)`: the regex `@\w+` removed. -/
def stripMentionsF : Nat → List Char → List Char
  | 0, s => s
  | _, [] => []
  | fuel+1, c :: rest =>
    if c == '@' then
      let run := rest.takeWhile isWordChar
      if run.length ≥ 1 then stripMentionsF fuel (rest.drop run.length)
      else c :: stripMentionsF fuel rest
    else c :: stripMentionsF fuel rest

def stripMentions (s : List Char) : List Char := stripMentionsF (s.length + 1) s

/-- `hashtag_pattern.sub(hashtag_replacer, text)`: the regex `#\w+`; a
hashtag whose (uppercased) body is among the previously found ticker runs
becomes `$BODY` (uppercased), any other hashtag loses its `#`. -/
def subHashtagsF (tickerRuns : List (List Char)) : Nat → List Char → List Char
  | 0, s => s
  | _, [] => []
  | fuel+1, c :: rest =>
    if c == '#' then
      let run := rest.takeWhile isWordChar
      if run.length ≥ 1 then
        (if pyUpper run ∈ tickerRuns then '$' :: pyUpper run else run) ++
          subHashtagsF tickerRuns fuel (rest.drop run.length)
      else c :: subHashtagsF tickerRuns fuel rest
    else c :: subHashtagsF tickerRuns fuel rest

def subHashtags (tickerRuns : List (List Char)) (s : List Char) : List Char :=
  subHashtagsF tickerRuns (s.length + 1) s

/-- Local-part class `[A-Za-z0-9._%+-]` of `email_pattern`. -/
def isLocalChar (c : Char) : Bool :=
  c.isAlphanum || c == '.' || c == '_' || c == '%' || c == '+' || c == '-'

/-- Domain class `[A-Za-z0-9.-]` of `email_pattern`. -/
def isDomainChar (c : Char) : Bool := c.isAlphanum || c == '.' || c == '-'

/-- TLD class `[A-Z|a-z]` of `email_pattern` (the literal `|` inside the
character class is part of the class). -/
def isTldChar (c : Char) : Bool := c.isAlpha || c == '|'

/-- Longest `t` with `2 ≤ t ≤ bound` such that the first `t` characters of
`s` are TLD characters and a word boundary follows them (the backtracking
search of the greedy `[A-Z|a-z]{2,}\b` tail of `email_pattern`). -/
def tldSearch (s : List Char) : Nat → Option Nat
  | 0 => none
  | t+1 =>
    if 2 ≤ t + 1 && (s.take (t+1)).length == t + 1 &&
       (s.take (t+1)).all isTldChar && isBoundary (s.get? t) (s.get? (t+1)) then
      some (t+1)
    else tldSearch s t

/-- Backtracking search for the `.`+TLD split of the domain part of
`email_pattern`: `d` is the text right after `@`; a dot at index `k ≥ 1`
(tried greedily, largest first) must be followed by a TLD with a final word
boundary.  Returns the matched length within `d`. -/
def dotSearch (d : List Char) : Nat → Option Nat
  | 0 => none
  | k+1 =>
    match (if k ≥ 1 && d.get? k == some '.' then
             (tldSearch (d.drop (k+1)) ((d.drop (k+1)).takeWhile isTldChar).length).map
               (fun t => k + 1 + t)
           else none) with
    | some n => some n
    | none => dotSearch d k

/-- Length of a match of `email_pattern`
`\b[A-Za-z0-9._%+-]+@[A-Za-z0-9.-]+\.[A-Z|a-z]{2,}\b` at the head of `s`,
with `prev` the character before `s` (for the leading `\b`). -/
def emailMatchLen (prev : Option Char) (s : List Char) : Option Nat :=
  let locl := s.takeWhile isLocalChar
  if locl.length = 0 then none
  else if !isBoundary prev s.head? then none
  else
    match s.drop locl.length with
    | '@' :: d =>
      let D := d.takeWhile isDomainChar
      (dotSearch d D.length).map (fun m => locl.length + 1 + m)
    | _ => none

/-- `email_pattern.sub('', text)`. -/
def stripEmailsF : Nat → Option Char → List Char → List Char
  | 0, _, s => s
  | _, _, [] => []
  | fuel+1, prev, c :: rest =>
    match emailMatchLen prev (c :: rest) with
    | some n => stripEmailsF fuel ((c :: rest).get? (n-1)) ((c :: rest).drop n)
    | none => c :: stripEmailsF fuel (some c) rest

def stripEmails (s : List Char) : List Char := stripEmailsF (s.length + 1) none s

/-- Length of a match of `phone_pattern` = `[\+]?[1-9]?[0-9]{7,14}` at the
head of `s` (greedy, with the backtracking order of Python `re`). -/
def phoneMatchLen (s : List Char) : Option Nat :=
  let p : Nat := if s.head? == some '+' then 1 else 0
  let R := (s.drop p).takeWhile isDigitChar
  match R with
  | r :: _ =>
    if '1' ≤ r && r ≤ '9' && R.length - 1 ≥ 7 then some (p + 1 + min 14 (R.length - 1))
    else if R.length ≥ 7 then some (p + min 14 R.length)
    else none
  | [] => none

/-- `phone_pattern.sub('', text)`. -/
def stripPhonesF : Nat → List Char → List Char
  | 0, s => s
  | _, [] => []
  | fuel+1, c :: rest =>
    match phoneMatchLen (c :: rest) with
    | some n => stripPhonesF fuel ((c :: rest).drop n)
    | none => c :: stripPhonesF fuel rest

def stripPhones (s : List Char) : List Char := stripPhonesF (s.length + 1) s

/-- The class `[!?.]` of `multiple_punctuation`. -/
def isPunctRun (c : Char) : Bool := c == '!' || c == '?' || c == '.'

/-- `multiple_punctuation.sub('...', text)`: runs of 3 or more of `!?.`
collapse to `...`. -/
def collapsePunctF : Nat → List Char → List Char
  | 0, s => s
  | _, [] => []
  | fuel+1, c :: rest =>
    if isPunctRun c then
      let run := rest.takeWhile isPunctRun
      if run.length + 1 ≥ 3 then
        '.' :: '.' :: '.' :: collapsePunctF fuel (rest.drop run.length)
      else c :: collapsePunctF fuel rest
    else c :: collapsePunctF fuel rest

def collapsePunct (s : List Char) : List Char := collapsePunctF (s.length + 1) s

/-- Whether `pat` matches at the head of `s`, literally or case-insensitively. -/
def matchesAt (ci : Bool) (pat s : List Char) : Bool :=
  match pat, s with
  | [], _ => true
  | _ :: _, [] => false
  | p :: ps, c :: cs =>
    (if ci then pyToLower p == pyToLower c else p == c) && matchesAt ci ps cs

/-- `re.sub(r'\b' + re.escape(pat) + r'\b', rep, text)` (with optional
`re.IGNORECASE`), as used for slang normalization and noise-word removal. -/
def subWBF (ci : Bool) (pat rep : List Char) : Nat → Option Char → List Char → List Char
  | 0, _, s => s
  | _, _, [] => []
  | fuel+1, prev, c :: rest =>
    if pat.length ≥ 1 && matchesAt ci pat (c :: rest) &&
       isBoundary prev (some c) &&
       isBoundary ((c :: rest).get? (pat.length - 1)) ((c :: rest).get? pat.length) then
      rep ++ subWBF ci pat rep fuel ((c :: rest).get? (pat.length - 1)) ((c :: rest).drop pat.length)
    else c :: subWBF ci pat rep fuel (some c) rest

def subWB (ci : Bool) (pat rep : String) (s : List Char) : List Char :=
  subWBF ci pat.data rep.data (s.length + 1) none s

/-! ### External collaborators -/

/-- Code external to this repository, abstracted as parameters:
`unescape` is Python stdlib `html.unescape`; `parseTS` is
`datetime.fromisoformat` (after the `'Z' → '+00:00'` replacement and
timezone stripping done by the callers), returning the post time in hours
since a fixed hour-aligned epoch, or `none` when parsing raises; `polarity`
and `subjectivity` are the TextBlob sentiment signals; `known` is the
result of `load_ticker_list()` viewed as a set (deduplicated). -/
structure ExtDeps where
  unescape : String → String
  parseTS : String → Option ℚ
  polarity : String → ℚ
  subjectivity : String → ℚ
  known : List String

/-! ### TextCleaner (`src/parser/text_cleaner.py`) -/

/-- `TextCleaner.clean_basic`: decode HTML entities, remove URLs, collapse
whitespace, strip. -/
def clean_basic (ext : ExtDeps) (text : String) : String :=
  if text = "" then ""
  else ⟨pyStrip (collapseWs (stripUrls (ext.unescape text).data))⟩

/-- `slang_replacements` (insertion order of the source dict literal). -/
def slang_replacements : List (String × String) := [
  ("hodl", "hold"), ("stonks", "stocks"), ("tendies", "profits"),
  ("diamond hands", "holding strong"), ("paper hands", "selling quickly"),
  ("moon", "price increase"), ("lambo", "profits"), ("ape", "investor"),
  ("retard", "investor"), ("autist", "investor"), ("yolo", "risky investment"),
  ("fomo", "fear of missing out"), ("dd", "due diligence"), ("gains", "profits"),
  ("loss porn", "investment losses"), ("bag holder", "stuck investor"),
  ("squeeze", "price surge"), ("rocket", "price increase"),
  ("brrrr", "money printing"), ("guh", "loss reaction")]

/-- `noise_words` of `TextCleaner.remove_noise_words`. -/
def noise_words : List String :=
  ["lol", "lmao", "omg", "wtf", "tbh", "imo", "imho", "afaik",
   "tldr", "tl;dr", "fyi", "btw", "idk", "ngl", "smh"]

/-- The regex `\$[A-Z]{1,5}\b` (full matches, without the `$`): at a `$`,
the following maximal `[A-Z]` run must have length 1..5 and be followed by
a word boundary; `findall` then resumes after the match.  Returns the
letter runs of all matches, in order. -/
def scanDollarF : Nat → List Char → List (List Char)
  | 0, _ => []
  | _, [] => []
  | fuel+1, c :: rest =>
    if c == '$' then
      let run := rest.takeWhile isUpperAZ
      if 1 ≤ run.length && run.length ≤ 5 && boundaryAfterAt rest run.length then
        run :: scanDollarF fuel (rest.drop run.length)
      else scanDollarF fuel rest
    else scanDollarF fuel rest

def scanDollar (s : List Char) : List (List Char) := scanDollarF (s.length + 1) s

/-- `TextCleaner.clean_social_media` with `preserve_tickers`. -/
def clean_social_media (ext : ExtDeps) (text : String) (preserveTickers : Bool) : String :=
  if text = "" then ""
  else
    let t := (clean_basic ext text).data
    let tickerRuns := if preserveTickers then scanDollar (pyUpper t) else []
    let t := stripMentions t
    let t := subHashtags tickerRuns t
    let t := stripEmails t
    let t := stripPhones t
    let t := collapsePunct t
    ⟨pyStrip (collapseWs t)⟩

/-- `TextCleaner.normalize_financial_slang`: lowercase, then apply each
word-bounded slang substitution in dict order. -/
def normalize_financial_slang (text : String) : String :=
  if text = "" then ""
  else ⟨slang_replacements.foldl (fun t pr => subWB false pr.1 pr.2 t) (pyLower text.data)⟩

/-- `TextCleaner.remove_noise_words`: case-insensitive word-bounded removal
of each noise word, then whitespace collapse and strip. -/
def remove_noise_words (text : String) : String :=
  ⟨pyStrip (collapseWs (noise_words.foldl (fun t w => subWB true w "" t) text.data))⟩

/-- `TextCleaner.preserve_financial_context`: the `preserved_terms`
computation of the source has no effect on the returned value, which is
just `clean_social_media(text)`. -/
def preserve_financial_context (ext : ExtDeps) (text : String) : String :=
  if text = "" then "" else clean_social_media ext text true

/-- `TextCleaner.clean_for_sentiment_analysis` (with its default
`normalize_slang=True`, the only way the scorers call it). -/
def clean_for_sentiment_analysis (ext : ExtDeps) (text : String) : String :=
  if text = "" then ""
  else
    preserve_financial_context ext
      (remove_noise_words (normalize_financial_slang (clean_social_media ext text true)))

/-! ### TickerParser (`src/parser/ticker_parser.py`) -/

def exclude_words : List String := [
  "THE", "AND", "FOR", "ARE", "BUT", "NOT", "YOU", "ALL", "CAN", "HER", "WAS", "ONE", "OUR", 
  "HAD", "BUT", "HAVE", "THIS", "WILL", "FROM", "THEY", "KNOW", "WANT", "BEEN", "GOOD", "MUCH", 
  "SOME", "TIME", "VERY", "WHEN", "COME", "HERE", "HOW", "JUST", "LIKE", "LONG", "MAKE", "MANY", 
  "OVER", "SUCH", "TAKE", "THAN", "THEM", "WELL", "WERE", "WHAT", "YOUR", "WAY", "WHO", "BOY", 
  "DID", "ITS", "LET", "OLD", "SEE", "NOW", "GET", "MAN", "NEW", "MAY", "SAY", "USE", "HIM", 
  "DAY", "TOO", "ANY", "MY", "SHE", "PUT", "END", "WHY", "TRY", "GOD", "SIX", "DOG", "EAT", "AGO", 
  "SIT", "FUN", "BAD", "YES", "YET", "ARM", "FAR", "OFF", "ILL", "OWN", "UNDER", "READ", "LAST", 
  "NEVER", "US", "LEFT", "FIND", "LIFE", "WRITE", "WORK", "PART", "TAKE", "PLACE", "MADE", "LIVE", 
  "WHERE", "AFTER", "BACK", "LITTLE", "ONLY", "ROUND", "YEAR", "CAME", "SHOW", "EVERY", "GOOD", 
  "ME", "GIVE", "OUR", "UNDER", "NAME", "VERY", "THROUGH", "JUST", "FORM", "SENTENCE", "GREAT", 
  "THINK", "HELP", "LOW", "LINE", "DIFFER", "TURN", "CAUSE", "MUCH", "MEAN", "BEFORE", "MOVE", 
  "RIGHT", "SAME", "TELL", "DOES", "SET", "THREE", "WANT", "AIR", "WELL", "ALSO", "PLAY", "SMALL", 
  "END", "HOME", "HAND", "LARGE", "SPELL", "ADD", "EVEN", "LAND", "HERE", "MUST", "BIG", "HIGH", 
  "SUCH", "FOLLOW", "ACT", "WHY", "ASK", "MEN", "CHANGE", "WENT", "LIGHT", "KIND", "OFF", "NEED", 
  "HOUSE", "PICTURE", "TRY", "AGAIN", "ANIMAL", "POINT", "MOTHER", "WORLD", "NEAR", "BUILD", 
  "SELF", "EARTH", "FATHER", "HEAD", "STAND", "OWN", "PAGE", "SHOULD", "COUNTRY", "FOUND", 
  "ANSWER", "SCHOOL", "GROW", "STUDY", "STILL", "LEARN", "PLANT", "COVER", "FOOD", "SUN", "FOUR", 
  "BETWEEN", "STATE", "KEEP", "EYE", "NEVER", "LAST", "LET", "THOUGHT", "CITY", "TREE", "CROSS", 
  "FARM", "HARD", "START", "MIGHT", "STORY", "SAW", "FAR", "SEA", "DRAW", "LEFT", "LATE", "RUN", 
  "WHILE", "REAL", "OPEN", "WALK", "SEEM", "TOGETHER", "NEXT", "WHITE", "CHILDREN", "BEGINNING", 
  "GOT", "LOOK", "EXAMPLE", "BEING", "NOTHING", "CALLED", "IDEA", "FISH", "MOUNTAIN", "NORTH", 
  "ONCE", "BASE", "HEAR", "HORSE", "CUT", "SURE", "WATCH", "COLOR", "FACE", "WOOD", "MAIN", 
  "ENOUGH", "PLAIN", "GIRL", "USUAL", "YOUNG", "READY", "ABOVE", "EVER", "RED", "LIST", "THOUGH", 
  "FEEL", "TALK", "BIRD", "SOON", "BODY", "MUSIC", "UNTIL", "FAMILY", "LEAVE", "OFTEN", "BOOK", 
  "THOSE", "BOTH", "MARK", "LETTER", "MILE", "RIVER", "CAR", "FEET", "CARE", "SECOND", "GROUP", 
  "CARRY", "TOOK", "RAIN", "SIDE", "REAL", "EAT", "ROOM", "FRIEND", "BEGAN", "IDEA", "FISH", 
  "MOUNTAIN", "STOP", "ONCE", "BASE", "HEAR", "HORSE", "CUT", "SURE", "WATCH", "COLOR", "FACE", 
  "WOOD", "MAIN", "OPEN", "SEEM", "TOGETHER", "NEXT", "WHITE", "CHILDREN", "BEGINNING", "GOT", 
  "WALK", "EXAMPLE", "EASE", "PAPER", "OFTEN", "ALWAYS", "MUSIC", "THOSE", "BOTH", "MARK", 
  "OFTEN", "LETTER", "UNTIL", "MILE", "RIVER", "CAR", "FEET", "CARE", "SECOND", "ENOUGH", "PLAIN", 
  "GIRL", "USUAL", "YOUNG", "READY", "ABOVE", "EVER", "RED", "LIST", "THOUGH", "FEEL", "TALK", 
  "BIRD", "SOON", "BODY", "MUSIC", "LEAVE", "FAMILY", "STARTED", "REALLY", "HIGH", "FIELD", 
  "SEVERAL", "DURING", "POSSIBLE", "CAME", "TERM", "CALLS", "PER", "FEW", "MORE", "TRUMP", "BNB", 
  "IN", "DYING", "AN", "DD", "ETH", "BTC", "AT", "DOT", "NICE", "AS", "MOONS", "VISAS", "RTA", 
  "RATES", "POST", "LINK", "BUY", "BY", "LESS", "TECH", "LYC", "BEACH", "RANGE", "TO", "STUFF", 
  "COVID", "OF", "USING", "AHEAD", "VALID"]

def common_false_positives : List String := [
  "TERM", "CALLS", "PER", "FEW", "MORE", "TRUMP", "CHEAP", "TAILS", "THAT", "HAUL", "WITH", 
  "INTO", "THE", "AND", "FOR", "ARE", "BUT", "NOT", "YOU", "ALL", "CAN", "HER", "WAS", "ONE", 
  "OUR", "HAD", "HAVE", "THIS", "WILL", "FROM", "THEY", "KNOW", "WANT", "BEEN", "GOOD", "MUCH", 
  "SOME", "TIME", "VERY", "WHEN", "COME", "HERE", "HOW", "JUST", "LIKE", "LONG", "MAKE", "MANY", 
  "OVER", "SUCH", "TAKE", "THAN", "THEM", "WELL", "WERE", "WHAT", "YOUR", "WAY", "WHO", "BOY", 
  "DID", "ITS", "LET", "OLD", "SEE", "NOW", "GET", "MAN", "NEW", "MAY", "SAY", "USE", "HIM", 
  "DAY", "TOO", "ANY", "MY", "SHE", "PUT", "END", "WHY", "TRY", "GOD", "SIX", "DOG", "EAT", "AGO", 
  "SIT", "FUN", "BAD", "YES", "YET", "ARM", "FAR", "OFF", "ILL", "OWN", "UNDER", "READ", "LAST", 
  "NEVER", "US", "LEFT", "FIND", "LIFE", "WRITE", "WORK", "PART", "TAKE", "PLACE", "MADE", "LIVE", 
  "WHERE", "AFTER", "BACK", "LITTLE", "ONLY", "ROUND", "YEAR", "CAME", "SHOW", "EVERY", "GOOD", 
  "ME", "GIVE", "OUR", "UNDER", "NAME", "VERY", "THROUGH", "JUST", "FORM", "SENTENCE", "GREAT", 
  "THINK", "HELP", "LOW", "LINE", "DIFFER", "TURN", "CAUSE", "MUCH", "MEAN", "BEFORE", "MOVE", 
  "RIGHT", "SAME", "TELL", "DOES", "SET", "THREE", "WANT", "AIR", "WELL", "ALSO", "PLAY", "SMALL", 
  "END", "HOME", "HAND", "LARGE", "SPELL", "ADD", "EVEN", "LAND", "HERE", "MUST", "BIG", "HIGH", 
  "SUCH", "FOLLOW", "ACT", "WHY", "ASK", "MEN", "CHANGE", "WENT", "LIGHT", "KIND", "OFF", "NEED", 
  "HOUSE", "PICTURE", "TRY", "AGAIN", "ANIMAL", "POINT", "MOTHER", "WORLD", "NEAR", "BUILD", 
  "SELF", "EARTH", "FATHER", "HEAD", "STAND", "OWN", "PAGE", "SHOULD", "COUNTRY", "FOUND", 
  "ANSWER", "SCHOOL", "GROW", "STUDY", "STILL", "LEARN", "PLANT", "COVER", "FOOD", "SUN", "FOUR", 
  "BETWEEN", "STATE", "KEEP", "EYE", "NEVER", "LAST", "LET", "THOUGHT", "CITY", "TREE", "CROSS", 
  "FARM", "HARD", "START", "MIGHT", "STORY", "SAW", "FAR", "SEA", "DRAW", "LEFT", "LATE", "RUN", 
  "WHILE", "REAL", "OPEN", "WALK", "SEEM", "TOGETHER", "NEXT", "WHITE", "CHILDREN", "BEGINNING", 
  "GOT", "LOOK", "EXAMPLE", "BEING", "NOTHING", "CALLED", "IDEA", "FISH", "MOUNTAIN", "NORTH", 
  "ONCE", "BASE", "HEAR", "HORSE", "CUT", "SURE", "WATCH", "COLOR", "FACE", "WOOD", "MAIN", 
  "ENOUGH", "PLAIN", "GIRL", "USUAL", "YOUNG", "READY", "ABOVE", "EVER", "RED", "LIST", "THOUGH", 
  "FEEL", "TALK", "BIRD", "SOON", "BODY", "MUSIC", "UNTIL", "FAMILY", "LEAVE", "OFTEN", "BOOK", 
  "THOSE", "BOTH", "MARK", "LETTER", "MILE", "RIVER", "CAR", "FEET", "CARE", "SECOND", "GROUP", 
  "CARRY", "TOOK", "RAIN", "SIDE", "REAL", "EAT", "ROOM", "FRIEND", "BEGAN", "IDEA", "FISH", 
  "MOUNTAIN", "STOP", "ONCE", "BASE", "HEAR", "HORSE", "CUT", "SURE", "WATCH", "COLOR", "FACE", 
  "WOOD", "MAIN", "OPEN", "SEEM", "TOGETHER", "NEXT", "WHITE", "CHILDREN", "BEGINNING", "GOT", 
  "WALK", "EXAMPLE", "EASE", "PAPER", "OFTEN", "ALWAYS", "MUSIC", "THOSE", "BOTH", "MARK", 
  "OFTEN", "LETTER", "UNTIL", "MILE", "RIVER", "CAR", "FEET", "CARE", "SECOND", "ENOUGH", "PLAIN", 
  "GIRL", "USUAL", "YOUNG", "READY", "ABOVE", "EVER", "RED", "LIST", "THOUGH", "FEEL", "TALK", 
  "BIRD", "SOON", "BODY", "MUSIC", "LEAVE", "FAMILY", "STARTED", "REALLY", "HIGH", "FIELD", 
  "SEVERAL", "DURING", "POSSIBLE", "CAME"]

/-- Whether the previous character allows a `\b` before a word character. -/
def prevNonWord (prev : Option Char) : Bool :=
  match prev with
  | some p => !isWordChar p
  | none => true

/-- The `\s+(?:stock|shares?|ticker)\b` tail of the second ticker pattern,
applied to the text right after the captured run (alternation order and
greedy `s?` as in Python `re`; the text is already uppercased). -/
def stockWordKw (s : List Char) : Option Nat :=
  let ws := s.takeWhile isSpaceChar
  if ws.length = 0 then none
  else
    let t := s.drop ws.length
    let tryKw : String → Option Nat := fun kw =>
      if kw.data.isPrefixOf t && isBoundary (t.get? (kw.length - 1)) (t.get? kw.length) then
        some (ws.length + kw.length)
      else none
    match tryKw "STOCK" with
    | some n => some n
    | none =>
      match tryKw "SHARES" with
      | some n => some n
      | none =>
        match tryKw "SHARE" with
        | some n => some n
        | none => tryKw "TICKER"

/-- The regex `\b([A-Z]{2,5})\s+(?:stock|shares?|ticker)\b` (findall of
group 1 over uppercased text).  A match needs a maximal letter run of
length 2..5 (a longer run can never satisfy the following `\s+` under
backtracking) followed by whitespace and one of the keywords. -/
def scanStockWordF : Nat → Option Char → List Char → List (List Char)
  | 0, _, _ => []
  | _, _, [] => []
  | fuel+1, prev, c :: rest =>
    if prevNonWord prev && isUpperAZ c then
      let run := (c :: rest).takeWhile isUpperAZ
      match (if 2 ≤ run.length && run.length ≤ 5 then
               stockWordKw ((c :: rest).drop run.length)
             else none) with
      | some k =>
        run :: scanStockWordF fuel ((c :: rest).get? (run.length + k - 1))
          ((c :: rest).drop (run.length + k))
      | none => scanStockWordF fuel (some c) rest
    else scanStockWordF fuel (some c) rest

def scanStockWord (s : List Char) : List (List Char) := scanStockWordF (s.length + 1) none s

/-- The `(?:buy|sell|long|short)` head of the third ticker pattern; the four
alternatives are pairwise prefix-free, so at most one can match. -/
def buySellKw (s : List Char) : Option Nat :=
  let tryKw : String → Option Nat := fun kw =>
    if kw.data.isPrefixOf s then some kw.length else none
  match tryKw "BUY" with
  | some n => some n
  | none =>
    match tryKw "SELL" with
    | some n => some n
    | none =>
      match tryKw "LONG" with
      | some n => some n
      | none => tryKw "SHORT"

/-- The regex `\b(?:buy|sell|long|short)\s+([A-Z]{2,5})\b` (findall of
group 1 over uppercased text). -/
def scanBuySellF : Nat → Option Char → List Char → List (List Char)
  | 0, _, _ => []
  | _, _, [] => []
  | fuel+1, prev, c :: rest =>
    match (if prevNonWord prev then buySellKw (c :: rest) else none) with
    | some k =>
      let t := (c :: rest).drop k
      let ws := t.takeWhile isSpaceChar
      let u := t.drop ws.length
      let run := u.takeWhile isUpperAZ
      if ws.length ≥ 1 && 2 ≤ run.length && run.length ≤ 5 && boundaryAfterAt u run.length then
        run :: scanBuySellF fuel (u.get? (run.length - 1)) (u.drop run.length)
      else scanBuySellF fuel (some c) rest
    | none => scanBuySellF fuel (some c) rest

def scanBuySell (s : List Char) : List (List Char) := scanBuySellF (s.length + 1) none s

def cryptoSuffixes : List (List Char) := ["USD".data, "BTC".data, "ETH".data]

/-- The regex `\b([A-Z]{3,5})(?:USD|BTC|ETH)\b`: with `R` the maximal letter
run at a word boundary, the suffix must end exactly at the end of `R` (a
letter after it would break the final `\b`), so the group is forced to be
the first `|R| - 3` letters with `|R| ∈ [6,8]`. -/
def scanCryptoPairF : Nat → Option Char → List Char → List (List Char)
  | 0, _, _ => []
  | _, _, [] => []
  | fuel+1, prev, c :: rest =>
    if prevNonWord prev && isUpperAZ c then
      let run := (c :: rest).takeWhile isUpperAZ
      if 6 ≤ run.length && run.length ≤ 8 && (run.drop (run.length - 3)) ∈ cryptoSuffixes &&
         boundaryAfterAt (c :: rest) run.length then
        (run.take (run.length - 3)) ::
          scanCryptoPairF fuel ((c :: rest).get? (run.length - 1)) ((c :: rest).drop run.length)
      else scanCryptoPairF fuel (some c) rest
    else scanCryptoPairF fuel (some c) rest

def scanCryptoPair (s : List Char) : List (List Char) := scanCryptoPairF (s.length + 1) none s

def crypto_names : List (List Char) :=
  ["BTC", "ETH", "ADA", "DOT", "LINK", "LTC", "XRP", "BCH", "BNB", "SOL", "DOGE", "SHIB"].map
    String.data

/-- The regex `\b(BTC|ETH|ADA|DOT|LINK|LTC|XRP|BCH|BNB|SOL|DOGE|SHIB)\b`:
the alternatives are pairwise prefix-free, so a match is a maximal letter
run equal to one of them, bounded by word boundaries. -/
def scanCryptoNamesF : Nat → Option Char → List Char → List (List Char)
  | 0, _, _ => []
  | _, _, [] => []
  | fuel+1, prev, c :: rest =>
    if prevNonWord prev && isUpperAZ c then
      let run := (c :: rest).takeWhile isUpperAZ
      if run ∈ crypto_names && boundaryAfterAt (c :: rest) run.length then
        run :: scanCryptoNamesF fuel ((c :: rest).get? (run.length - 1)) ((c :: rest).drop run.length)
      else scanCryptoNamesF fuel (some c) rest
    else scanCryptoNamesF fuel (some c) rest

def scanCryptoNames (s : List Char) : List (List Char) := scanCryptoNamesF (s.length + 1) none s

def exchange_suffixes : List String := [".TO", ".V", ".L", ".PA", ".DE", ".HK"]

/-- `TickerParser.clean_ticker`: strip, uppercase, remove leading `$`s,
remove one exchange suffix.  The source iterates over a Python set and
breaks at the first matching suffix; the six suffixes end in distinct
letters, so at most one can match and the iteration order is irrelevant. -/
def cleanTickerCore (u : List Char) : String :=
  match exchange_suffixes.find? (fun suf => suf.data.isSuffixOf u) with
  | some suf => ⟨u.take (u.length - suf.length)⟩
  | none => ⟨u⟩

def clean_ticker (ticker : String) : String :=
  if ticker = "" then ""
  else cleanTickerCore ((pyUpper (pyStrip ticker.data)).dropWhile (fun c => c == '$'))

/-- `TickerParser.is_valid_ticker` (`known` is the loaded known-ticker set). -/
def is_valid_ticker (known : List String) (ticker : String) : Bool :=
  if ticker = "" then false
  else if ticker.length < 2 || ticker.length > 5 then false
  else if !(ticker.data.all isAlphaChar) then false
  else if ticker ∈ exclude_words then false
  else if ticker ∈ common_false_positives then false
  else if known.length > 100 then ticker ∈ known
  else true

/-- `TickerParser.extract_tickers_from_text`: uppercase, apply the five
patterns, union the matches (Python `set`, modelled as `dedup`), clean and
validate each, deduplicate.  No theorem below depends on the order chosen
by `dedup`. -/
def extract_tickers_from_text (known : List String) (text : String) : List String :=
  if text = "" then []
  else
    let t := pyUpper text.data
    let captures :=
      scanDollar t ++ scanStockWord t ++ scanBuySell t ++ scanCryptoPair t ++ scanCryptoNames t
    let extracted := (captures.map (fun l => (⟨l⟩ : String))).dedup
    ((extracted.map clean_ticker).filter (is_valid_ticker known)).dedup

/-- A standardized post record.  Python posts are dicts read via
`post.get(key, default)`; a key that may be absent where call sites use
different defaults (`source`, `timestamp`) is an `Option`, the rest carry
their uniform `get` default. -/
structure Post where
  id : String := ""
  text : String := ""
  source : Option String := none
  timestamp : Option String := none
  engagement_score : ℚ := 0
  author : String := ""
  url : String := ""
  mentioned_ticker : Option String := none
deriving DecidableEq, Inhabited

/-- The tagged copy `post_with_ticker = post.copy();
post_with_ticker['mentioned_ticker'] = ticker` of
`extract_tickers_from_posts`. -/
def tagPost (p : Post) (t : String) : Post := { p with mentioned_ticker := some t }

/-- `ticker_posts[ticker].append(q)` with dict-insertion-order semantics
(a new key goes to the end). -/
def groupAdd (m : List (String × List Post)) (t : String) (q : Post) :
    List (String × List Post) :=
  if m.any (fun e => e.1 == t) then
    m.map (fun e => if e.1 = t then (e.1, e.2 ++ [q]) else e)
  else m ++ [(t, [q])]

/-- `TickerParser.extract_tickers_from_posts`. -/
def extract_tickers_from_posts (known : List String) (posts : List Post) :
    List (String × List Post) :=
  posts.foldl (fun m p =>
    (extract_tickers_from_text known p.text).foldl (fun m t => groupAdd m t (tagPost p t)) m) []

/-! ### Python substring search -/

/-- Whether `needle` occurs in `hay` at index `i`. -/
def subMatchAt (hay needle : List Char) (i : Nat) : Bool := needle.isPrefixOf (hay.drop i)

/-- All indices `≥ start` at which `needle` occurs in `hay`, ascending
(indices up to `hay.length` inclusive: an empty needle matches at the end). -/
def occIdxFrom (hay needle : List Char) (start : Nat) : List Nat :=
  (List.range (hay.length + 1)).filter (fun i => decide (start ≤ i) && subMatchAt hay needle i)

/-- Python `hay.find(needle, start)`: the least matching index `≥ start`
(`none` models `-1`). -/
def pyFind (hay needle : List Char) (start : Nat) : Option Nat :=
  (occIdxFrom hay needle start).head?

/-- Python `needle in hay`. -/
def pyContains (hay needle : List Char) : Bool := (pyFind hay needle 0).isSome

/-- The number of occurrences of `needle` in `hay` — the count of indices
at which it matches.  This is the spec's notion of "every occurrence". -/
def occurrenceCount (hay needle : List Char) : Nat := (occIdxFrom hay needle 0).length

/-- `TickerParser.get_ticker_context`: for each post whose uppercased text
contains the ticker, a single context slice around the first occurrence
(one `find` call), stripped. -/
def get_ticker_context (posts : List Post) (ticker : String) (context_window : Nat) :
    List String :=
  match posts with
  | [] => []
  | p :: ps =>
    let text := p.text.data
    let rest := get_ticker_context ps ticker context_window
    if pyContains (pyUpper text) ticker.data then
      match pyFind (pyUpper text) ticker.data 0 with
      | some pos =>
        let start := pos - context_window
        let stop := min text.length (pos + ticker.length + context_window)
        (⟨pyStrip ((text.drop start).take (stop - start))⟩ : String) :: rest
      | none => rest
    else rest

/-- The repeated-search loop of
`SentimentScorer.calculate_ticker_context_sentiment`:
`start = 0; while True: pos = find(ticker, start); if pos == -1: break;
append(pos); start = pos + 1`.  Occurrence indices strictly increase and
are at most `hay.length`, so `hay.length + 1` fuel always suffices. -/
def findAllLoopF (hay needle : List Char) : Nat → Nat → List Nat
  | 0, _ => []
  | fuel+1, start =>
    match pyFind hay needle start with
    | none => []
    | some pos => pos :: findAllLoopF hay needle fuel (pos + 1)

def ticker_positions (hay needle : List Char) : List Nat :=
  findAllLoopF hay needle (hay.length + 1) 0

/-! ### SentimentScorer (`src/scorer/sentiment_scorer.py`) -/

def positive_keywords : List (String × Rat) := [
  ("moon", 3.0), ("rocket", 3.0), ("bullish", 2.5), ("bull", 2.0), ("buy", 2.0), ("long", 2.0), 
  ("calls", 1.5), ("pump", 2.0), ("diamond hands", 2.5), ("hold", 1.5), ("hodl", 2.0), 
  ("breakout", 2.0), ("rally", 2.0), ("surge", 2.5), ("gains", 2.0), ("profit", 2.0), ("up", 1.5), 
  ("rise", 1.5), ("green", 1.5), ("winning", 2.0), ("success", 2.0), ("strong", 1.8), 
  ("solid", 1.8), ("good", 1.5), ("great", 2.0), ("excellent", 2.5), ("amazing", 2.5), 
  ("love", 2.0), ("bullrun", 2.5), ("mooning", 3.0), ("lambo", 2.5), ("tendies", 2.0), 
  ("printing", 2.0), ("brrr", 1.5), ("positive", 1.5), ("optimistic", 1.8), ("confident", 1.8), 
  ("potential", 1.2), ("promising", 1.8), ("opportunity", 1.5), ("undervalued", 1.8), 
  ("cheap", 1.2), ("dip", 1.0), ("support", 1.2), ("bounce", 1.5), ("recovery", 1.8), 
  ("upgrade", 1.8), ("beat", 1.5), ("outperform", 2.0), ("momentum", 1.5), ("volume", 1.2), 
  ("interest", 1.0)]

def negative_keywords : List (String × Rat) := [
  ("crash", -3.0), ("dump", -2.5), ("bearish", -2.5), ("bear", -2.0), ("sell", -2.0), 
  ("short", -2.0), ("puts", -1.5), ("collapse", -3.0), ("paper hands", -2.0), ("panic", -2.5), 
  ("fear", -2.0), ("drop", -2.0), ("fall", -2.0), ("plunge", -2.5), ("tank", -2.5), 
  ("losses", -2.0), ("loss", -2.0), ("down", -1.5), ("red", -1.5), ("bad", -1.5), 
  ("terrible", -2.5), ("awful", -2.5), ("hate", -2.0), ("disaster", -3.0), ("dead", -2.5), 
  ("rekt", -2.5), ("rug", -3.0), ("scam", -3.0), ("fraud", -3.0), ("ponzi", -3.0), 
  ("negative", -1.5), ("pessimistic", -1.8), ("concerned", -1.5), ("worried", -1.8), 
  ("doubt", -1.5), ("uncertain", -1.2), ("overvalued", -1.8), ("expensive", -1.2), 
  ("risky", -1.5), ("resistance", -1.2), ("rejection", -1.5), ("decline", -1.8), 
  ("downgrade", -1.8), ("miss", -1.5), ("underperform", -2.0), ("weak", -1.5), ("poor", -1.8), 
  ("disappointing", -2.0)]

def intensifiers : List (String × Rat) := [
  ("very", 1.5), ("extremely", 2.0), ("really", 1.3), ("super", 1.8), ("incredibly", 2.0), 
  ("absolutely", 1.8), ("totally", 1.5), ("completely", 1.8), ("highly", 1.5), ("massively", 2.0)]

def diminishers : List (String × Rat) := [
  ("slightly", 0.5), ("somewhat", 0.7), ("little", 0.6), ("bit", 0.6), ("kind of", 0.7), 
  ("sort of", 0.7), ("maybe", 0.5), ("possibly", 0.6)]

def negators : List String := [
  "not", "no", "never", "none", "nothing", "neither", "nowhere", "nobody", "hardly", "scarcely", 
  "barely", "rarely"]

/-- Association-list lookup modelling Python dict `in`/`[]`. -/
def lookupQ (tbl : List (String × ℚ)) (k : String) : Option ℚ :=
  (tbl.find? (fun e => e.1 == k)).map (fun e => e.2)

/-- `SentimentScorer.analyze_text_sentiment`: the TextBlob polarity and
subjectivity signals (external library, abstracted into `ExtDeps`; the
source's `try/except` fallback is part of that abstraction). -/
def analyze_text_sentiment (ext : ExtDeps) (text : String) : ℚ × ℚ :=
  (ext.polarity text, ext.subjectivity text)

/-- The ±3-token context window
`words[max(0, position-3) : min(len(words), position+3+1)]` of
`_apply_context_modifiers`. -/
def ctxWindow (words : List String) (position : Nat) : List String :=
  (words.drop (position - 3)).take (min words.length (position + 3 + 1) - (position - 3))

/-- The intensifier/diminisher pass of `_apply_context_modifiers` over the
window, starting from the (possibly negated) score. -/
def modMultipliers (ctx : List String) (m : ℚ) : ℚ :=
  ctx.foldl (fun acc w =>
    match lookupQ intensifiers w with
    | some f => acc * f
    | none =>
      match lookupQ diminishers w with
      | some f => acc * f
      | none => acc) m

/-- `SentimentScorer._apply_context_modifiers`: any negator in the window
flips the sign and scales by 0.8, then each intensifier or diminisher in
the window multiplies the running score. -/
def apply_context_modifiers (words : List String) (position : Nat) (base : ℚ) : ℚ :=
  let ctx := ctxWindow words position
  let negated := ctx.any (fun w => negators.contains w)
  modMultipliers ctx (if negated then -base * 0.8 else base)

/-- The two-word-phrase lookup of `calculate_keyword_sentiment` at index
`i` (`i < len(words) - 1` guard, positive table checked first). -/
def twoWordScore (words : List String) (i : Nat) : Option ℚ :=
  if h : i + 1 < words.length then
    let phrase := words.get ⟨i, by omega⟩ ++ " " ++ words.get ⟨i + 1, h⟩
    match lookupQ positive_keywords phrase with
    | some sc => some sc
    | none => lookupQ negative_keywords phrase
  else none

/-- The single-word contribution at index `i` (zero when the word is in
neither table). -/
def keywordStepSingle (words : List String) (i : Nat) (word : String) : ℚ :=
  match lookupQ positive_keywords word with
  | some sc => apply_context_modifiers words i sc
  | none =>
    match lookupQ negative_keywords word with
    | some sc => apply_context_modifiers words i sc
    | none => 0

/-- The `while i < len(words)` accumulation loop of
`calculate_keyword_sentiment`: a two-word match advances `i` by 2, anything
else by 1, so `len(words) + 1` fuel always suffices. -/
def scanKeywordsF (words : List String) : Nat → Nat → ℚ
  | 0, _ => 0
  | fuel+1, i =>
    if h : i < words.length then
      match twoWordScore words i with
      | some sc => apply_context_modifiers words i sc + scanKeywordsF words fuel (i + 2)
      | none => keywordStepSingle words i (words.get ⟨i, h⟩) + scanKeywordsF words fuel (i + 1)
    else 0

def scanKeywords (words : List String) : ℚ := scanKeywordsF words (words.length + 1) 0

/-- Modelled from the spec: the sequence of "matched, modified scores" of
the keyword scan, one entry per keyword match, in scan order.  Used to
state that the loop total is their sum. -/
def matchedScoresF (words : List String) : Nat → Nat → List ℚ
  | 0, _ => []
  | fuel+1, i =>
    if h : i < words.length then
      match twoWordScore words i with
      | some sc => apply_context_modifiers words i sc :: matchedScoresF words fuel (i + 2)
      | none =>
        match lookupQ positive_keywords (words.get ⟨i, h⟩) with
        | some sc => apply_context_modifiers words i sc :: matchedScoresF words fuel (i + 1)
        | none =>
          match lookupQ negative_keywords (words.get ⟨i, h⟩) with
          | some sc => apply_context_modifiers words i sc :: matchedScoresF words fuel (i + 1)
          | none => matchedScoresF words fuel (i + 1)
    else []

def matchedScores (words : List String) : List ℚ :=
  matchedScoresF words (words.length + 1) 0

/-- Python two-argument `max` on exact rationals (computable, unlike the
lattice `max` that Mathlib installs on `ℚ`). -/
def pyMax2 (a b : ℚ) : ℚ := if b ≤ a then a else b

/-- Python two-argument `min` on exact rationals. -/
def pyMin2 (a b : ℚ) : ℚ := if a ≤ b then a else b

/-- The token list of `calculate_keyword_sentiment`:
`cleaned_text.lower().split()`. -/
def kwWords (ext : ExtDeps) (text : String) : List String :=
  (pySplit (pyLower (clean_for_sentiment_analysis ext text).data)).map (fun l => (⟨l⟩ : String))

/-- `SentimentScorer.calculate_keyword_sentiment` (its `ticker` parameter
is unused by the source body and omitted here). -/
def calculate_keyword_sentiment (ext : ExtDeps) (text : String) : ℚ :=
  if text = "" then 0
  else
    let words := kwWords ext text
    if words.length = 0 then 0
    else
      let normalized := scanKeywords words / pyMax2 1 ((words.length : ℚ) / 10)
      pyMax2 (-5) (pyMin2 5 normalized)

/-- `SentimentScorer._calculate_std`; `variance ** 0.5` is a real square
root (the variance is a sum of squares over a positive count, hence
non-negative). -/
noncomputable def pyStd (values : List ℚ) : ℝ :=
  if values.length < 2 then 0
  else
    let mean : ℚ := values.sum / (values.length : ℚ)
    let variance : ℚ := (values.map (fun x => (x - mean) * (x - mean))).sum / (values.length : ℚ)
    Real.sqrt (variance : ℝ)

/-- The per-post context extraction of
`calculate_ticker_context_sentiment`: every occurrence of the (uppercased)
ticker in the uppercased text yields the slice
`text[max(0, pos-100) : min(len(text), pos+len(ticker)+100)]`. -/
def ticker_contexts_of_post (ticker : String) (p : Post) : List String :=
  let text := p.text.data
  if pyContains (pyUpper text) (pyUpper ticker.data) then
    (ticker_positions (pyUpper text) (pyUpper ticker.data)).map (fun pos =>
      let start := pos - 100
      let stop := min text.length (pos + ticker.length + 100)
      (⟨(text.drop start).take (stop - start)⟩ : String))
  else []

/-- The dict returned by `calculate_ticker_context_sentiment` (both early
returns carry zeros; downstream readers use `.get` defaults for the keys
those early returns omit). -/
structure CtxSentiment where
  sentiment_score : ℚ
  confidence : ℝ
  post_count : Nat
  context_count : Nat := 0
  keyword_sentiment : ℚ := 0
  textblob_sentiment : ℚ := 0
  keyword_std : ℝ := 0
  textblob_std : ℝ := 0

/-- `SentimentScorer.calculate_ticker_context_sentiment`. -/
noncomputable def calculate_ticker_context_sentiment (ext : ExtDeps) (posts : List Post)
    (ticker : String) : CtxSentiment :=
  if posts = [] then ⟨0, 0, 0, 0, 0, 0, 0, 0⟩
  else
    let contexts := (posts.map (ticker_contexts_of_post ticker)).flatten
    if contexts = [] then ⟨0, 0, 0, 0, 0, 0, 0, 0⟩
    else
      let keyword_scores := contexts.map (calculate_keyword_sentiment ext)
      let textblob_scores := contexts.map (fun c => (analyze_text_sentiment ext c).1)
      let avgK := keyword_scores.sum / keyword_scores.length
      let avgT := textblob_scores.sum / textblob_scores.length
      let kstd := pyStd keyword_scores
      let tstd := pyStd textblob_scores
      { sentiment_score := avgK * 0.7 + avgT * 3.0 * 0.3,
        confidence := 1 / (1 + kstd + tstd),
        post_count := posts.length, context_count := contexts.length,
        keyword_sentiment := avgK, textblob_sentiment := avgT,
        keyword_std := kstd, textblob_std := tstd }

/-- The dict returned by `calculate_sentiment_trend` (insufficient data
yields `neutral` with the extra keys at their `.get` defaults). -/
structure TrendData where
  trend : String
  trend_strength : ℚ
  early_sentiment : ℚ := 0
  late_sentiment : ℚ := 0
  trend_change : ℚ := 0

/-- `SentimentScorer.calculate_sentiment_trend`.  `total_time` is in hours,
so `total_seconds() < 3600` is `total < 1`. -/
noncomputable def calculate_sentiment_trend (ext : ExtDeps) (posts : List Post)
    (ticker : String) : TrendData :=
  if posts = [] then ⟨"neutral", 0, 0, 0, 0⟩
  else
    let tposts := posts.filterMap (fun p =>
      match p.timestamp with
      | some s => if s ≠ "" then (ext.parseTS s).map (fun t => (t, p)) else none
      | none => none)
    if tposts.length < 2 then ⟨"neutral", 0, 0, 0, 0⟩
    else
      let sorted := tposts.mergeSort (fun a b => decide (a.1 ≤ b.1))
      let t0 := ((sorted.head?).map (fun x => x.1)).getD 0
      let t1 := ((sorted.getLast?).map (fun x => x.1)).getD 0
      if t1 - t0 < 1 then ⟨"neutral", 0, 0, 0, 0⟩
      else
        let mid := t0 + (t1 - t0) / 2
        let early := (sorted.filter (fun x => decide (x.1 ≤ mid))).map (fun x => x.2)
        let late := (sorted.filter (fun x => decide (mid < x.1))).map (fun x => x.2)
        let eS := (calculate_ticker_context_sentiment ext early ticker).sentiment_score
        let lS := (calculate_ticker_context_sentiment ext late ticker).sentiment_score
        let change := lS - eS
        { trend :=
            if change > 0.2 then "improving"
            else if change < -0.2 then "declining" else "stable",
          trend_strength := |change|,
          early_sentiment := eS, late_sentiment := lS, trend_change := change }

/-- The per-ticker dict of `calculate_comprehensive_sentiment_score`. -/
structure SentimentData where
  sentiment_score : ℚ
  confidence : ℝ
  post_count : Nat
  context_sentiment : ℚ := 0
  weighted_sentiment : ℚ := 0
  trend : String := "neutral"
  trend_strength : ℚ := 0
  keyword_sentiment : ℚ := 0
  textblob_sentiment : ℚ := 0

/-- The `source_weights` dict hard-coded inside
`calculate_comprehensive_sentiment_score`. -/
def sentiment_source_weights : List (String × ℚ) :=
  [("twitter", 1.0), ("reddit", 1.2), ("reddit_comment", 0.8)]

/-- `SentimentScorer.calculate_comprehensive_sentiment_score`. -/
noncomputable def calculate_comprehensive_sentiment_score (ext : ExtDeps)
    (ticker_posts : List (String × List Post)) : List (String × SentimentData) :=
  ticker_posts.map (fun e =>
    if e.2 = [] then (e.1, ⟨0, 0, 0, 0, 0, "neutral", 0, 0, 0⟩)
    else
      let ctx := calculate_ticker_context_sentiment ext e.2 e.1
      let trendA := calculate_sentiment_trend ext e.2 e.1
      let acc := e.2.foldl (fun (a : ℚ × ℚ) p =>
        let ps := calculate_keyword_sentiment ext p.text
        let w := (lookupQ sentiment_source_weights (p.source.getD "unknown")).getD 1.0
        (a.1 + ps * w, a.2 + w)) ((0, 0) : ℚ × ℚ)
      let weighted := if (0 : ℚ) < acc.2 then acc.1 / acc.2 else acc.1
      let final := ctx.sentiment_score * 0.5 + weighted * 0.3 +
        ((if trendA.trend = "improving" then (1 : ℚ)
          else if trendA.trend = "declining" then -1 else 0) * trendA.trend_strength) * 0.2
      (e.1, { sentiment_score := final, confidence := ctx.confidence,
              post_count := e.2.length, context_sentiment := ctx.sentiment_score,
              weighted_sentiment := weighted, trend := trendA.trend,
              trend_strength := trendA.trend_strength,
              keyword_sentiment := ctx.keyword_sentiment,
              textblob_sentiment := ctx.textblob_sentiment }))

/-! ### Configuration (`HypeScorer.__init__` / `VolumeScorer.__init__`) -/

/-- The configuration surface read by the scorers, flattened, with the
source's `config.get` defaults. -/
structure Config where
  volume_weight : ℚ := 0.7
  sentiment_weight : ℚ := 0.3
  min_mentions : Nat := 5
  top_n_tickers : Nat := 20
  recency_boost : Bool := true
  cross_platform_bonus : Bool := true
  engagement_multiplier : Bool := true
  min_sentiment_confidence : ℚ := 0.1
  time_decay_factor : ℚ := 0.9
  engagement_weight : ℚ := 0.3
  source_weights : List (String × ℚ) := [("twitter", 1.0), ("reddit", 1.2), ("reddit_comment", 0.8)]

/-- Generic association-list lookup (Python `dict.get`). -/
def alookup {α : Type} (tbl : List (String × α)) (k : String) : Option α :=
  (tbl.find? (fun e => e.1 == k)).map (fun e => e.2)

/-- The guarded timestamp parse used throughout the scorers:
`timestamp_str = post.get('timestamp')`, the falsy check (absent or empty),
then `datetime.fromisoformat` with the `try/except` returning `none`. -/
def postTime (ext : ExtDeps) (p : Post) : Option ℚ :=
  match p.timestamp with
  | some s => if s ≠ "" then ext.parseTS s else none
  | none => none

/-! ### VolumeScorer (`src/scorer/volume_scorer.py`) -/

/-- `VolumeScorer.calculate_raw_volume`. -/
def calculate_raw_volume (groups : List (String × List Post)) : List (String × ℚ) :=
  groups.map (fun e => (e.1, (e.2.length : ℚ)))

/-- The per-post term of `calculate_weighted_volume`:
`source_weight * (1 + engagement * engagement_weight / 100)`. -/
def post_weighted_score (cfg : Config) (p : Post) : ℚ :=
  let source_weight := (lookupQ cfg.source_weights (p.source.getD "unknown")).getD 1.0
  let engM := 1 + p.engagement_score * cfg.engagement_weight / 100
  source_weight * engM

/-- `VolumeScorer.calculate_weighted_volume`. -/
def calculate_weighted_volume (cfg : Config) (groups : List (String × List Post)) :
    List (String × ℚ) :=
  groups.map (fun e => (e.1, (e.2.map (post_weighted_score cfg)).sum))

/-- The per-post time decay of `calculate_time_weighted_volume`:
`math.pow(decay, hours_ago)`, neutral weight 1 when the timestamp is
missing or unparsable. -/
noncomputable def post_time_weight (cfg : Config) (ext : ExtDeps) (now : ℚ) (p : Post) : ℝ :=
  match postTime ext p with
  | some t => Real.rpow (cfg.time_decay_factor : ℝ) (((now - t : ℚ) : ℝ))
  | none => 1

/-- `VolumeScorer.calculate_time_weighted_volume`. -/
noncomputable def calculate_time_weighted_volume (cfg : Config) (ext : ExtDeps) (now : ℚ)
    (groups : List (String × List Post)) : List (String × ℝ) :=
  groups.map (fun e =>
    (e.1, (e.2.map (fun p =>
      ((post_weighted_score cfg p : ℚ) : ℝ) * post_time_weight cfg ext now p)).sum))

/-- `VolumeScorer.calculate_velocity_score`: posts in the trailing 4-hour
window, divided by 4. -/
def calculate_velocity_score (ext : ExtDeps) (now : ℚ) (groups : List (String × List Post)) :
    List (String × ℚ) :=
  groups.map (fun e =>
    (e.1, ((e.2.filter (fun p =>
      match postTime ext p with
      | some t => decide (now - t ≤ 4)
      | none => false)).length : ℚ) / 4))

/-- `defaultdict(int)` bucket increment (insertion order preserved). -/
def bucketAdd (m : List (ℤ × Nat)) (b : ℤ) : List (ℤ × Nat) :=
  if m.any (fun e => e.1 == b) then m.map (fun e => if e.1 = b then (e.1, e.2 + 1) else e)
  else m ++ [(b, 1)]

/-- `VolumeScorer.calculate_spike_detection`: 1-hour buckets by timestamp
(`replace(minute=0, second=0, microsecond=0)` is the floor to the hour);
fewer than 2 non-empty buckets give 0; otherwise peak count over mean
count (1 when the mean is not positive).  The `current_time` read by the
source is never used, so the result does not depend on the clock. -/
def calculate_spike_detection (ext : ExtDeps) (groups : List (String × List Post)) :
    List (String × ℚ) :=
  groups.map (fun e =>
    let buckets := e.2.foldl (fun m p =>
      match postTime ext p with
      | some t => bucketAdd m ⌊t⌋
      | none => m) ([] : List (ℤ × Nat))
    let counts : List Nat := buckets.map (fun b => b.2)
    if counts.length < 2 then (e.1, (0 : ℚ))
    else
      let avg : ℚ := ((counts.sum : Nat) : ℚ) / (counts.length : ℚ)
      let recent : Nat := counts.foldl max 0
      (e.1, if 0 < avg then (recent : ℚ) / avg else 1))

/-- `VolumeScorer.calculate_cross_platform_boost`. -/
def calculate_cross_platform_boost (groups : List (String × List Post)) :
    List (String × ℚ) :=
  groups.map (fun e =>
    let platform_count := ((e.2.map (fun p => p.source.getD "unknown")).dedup).length
    (e.1, 1 + ((platform_count : ℚ) - 1) * 0.2))

/-- Python `max(list)` over a non-empty list (with a dummy default for the
empty case that the source guards against). -/
def pyMax {α : Type} [LinearOrder α] (l : List α) (dflt : α) : α :=
  match l with
  | [] => dflt
  | x :: xs => xs.foldl max x

/-- Python `min(list)`. -/
def pyMin {α : Type} [LinearOrder α] (l : List α) (dflt : α) : α :=
  match l with
  | [] => dflt
  | x :: xs => xs.foldl min x

/-- `VolumeScorer.normalize_scores`: min–max normalization to [0,1]; an
empty map stays empty; when all values tie, every value maps to 1.0.
Generic over the score field because the source applies it both to exact
(`ℚ`-modelled) and to time-decayed (`ℝ`-modelled) metrics. -/
def normalize_scores {α : Type} [LinearOrderedField α] (scores : List (String × α)) :
    List (String × α) :=
  match scores with
  | [] => []
  | _ :: _ =>
    let vals := scores.map (fun e => e.2)
    let max_score := pyMax vals 0
    let min_score := pyMin vals 0
    if max_score = min_score then scores.map (fun e => (e.1, 1))
    else scores.map (fun e => (e.1, (e.2 - min_score) / (max_score - min_score)))

/-- `VolumeScorer.calculate_comprehensive_volume_score`: the five
normalized sub-metrics combined with weights raw 0.2, weighted 0.25,
time-weighted 0.25, velocity 0.15, spike 0.15, then the cross-platform
boost applied unnormalized. -/
noncomputable def calculate_comprehensive_volume_score (cfg : Config) (ext : ExtDeps)
    (now : ℚ) (groups : List (String × List Post)) : List (String × ℝ) :=
  match groups with
  | [] => []
  | _ :: _ =>
    let norm_raw := normalize_scores (calculate_raw_volume groups)
    let norm_weighted := normalize_scores (calculate_weighted_volume cfg groups)
    let norm_time := normalize_scores (calculate_time_weighted_volume cfg ext now groups)
    let norm_velocity := normalize_scores (calculate_velocity_score ext now groups)
    let norm_spike := normalize_scores (calculate_spike_detection ext groups)
    let cross := calculate_cross_platform_boost groups
    groups.map (fun e =>
      let score : ℝ :=
        (((alookup norm_raw e.1).getD 0 : ℚ) : ℝ) * 0.2 +
        (((alookup norm_weighted e.1).getD 0 : ℚ) : ℝ) * 0.25 +
        ((alookup norm_time e.1).getD 0) * 0.25 +
        (((alookup norm_velocity e.1).getD 0 : ℚ) : ℝ) * 0.15 +
        (((alookup norm_spike e.1).getD 0 : ℚ) : ℝ) * 0.15
      (e.1, score * (((alookup cross e.1).getD 1 : ℚ) : ℝ)))

/-- Counter increment (insertion order preserved). -/
def countAdd (m : List (String × Nat)) (k : String) : List (String × Nat) :=
  if m.any (fun e => e.1 == k) then m.map (fun e => if e.1 = k then (e.1, e.2 + 1) else e)
  else m ++ [(k, 1)]

/-- The per-ticker dict of `VolumeScorer.get_volume_metrics` (`spike`
models the source key `spike_ratio`). -/
structure VolMetrics where
  raw_mentions : ℚ := 0
  weighted_volume : ℚ := 0
  time_weighted_volume : ℝ := 0
  velocity_per_hour : ℚ := 0
  spike : ℚ := 0
  cross_platform_boost : ℚ := 1
  total_engagement : ℚ := 0
  platform_distribution : List (String × Nat) := []
  unique_authors : Nat := 0

/-- `VolumeScorer.get_volume_metrics`. -/
noncomputable def get_volume_metrics (cfg : Config) (ext : ExtDeps) (now : ℚ)
    (groups : List (String × List Post)) : List (String × VolMetrics) :=
  let raw := calculate_raw_volume groups
  let weighted := calculate_weighted_volume cfg groups
  let time_weighted := calculate_time_weighted_volume cfg ext now groups
  let velocity := calculate_velocity_score ext now groups
  let spike := calculate_spike_detection ext groups
  let cross := calculate_cross_platform_boost groups
  groups.map (fun e =>
    let sources := e.2.foldl (fun m p => countAdd m (p.source.getD "unknown")) []
    (e.1,
      { raw_mentions := (alookup raw e.1).getD 0,
        weighted_volume := (alookup weighted e.1).getD 0,
        time_weighted_volume := (alookup time_weighted e.1).getD 0,
        velocity_per_hour := (alookup velocity e.1).getD 0,
        spike := (alookup spike e.1).getD 0,
        cross_platform_boost := (alookup cross e.1).getD 1,
        total_engagement := (e.2.map (fun p => p.engagement_score)).sum,
        platform_distribution := sources,
        unique_authors := ((e.2.map (fun p => p.author)).dedup).length }))

/-! ### HypeScorer (`src/scorer/hype_scorer.py`) -/

/-- An entry of `_get_sample_posts`. -/
structure SamplePost where
  text : String
  source : String
  engagement_score : ℚ
  url : String
  timestamp : String
deriving DecidableEq

/-- `post.get('text', '')[:200] + ('...' if len(...) > 200 else '')`. -/
def truncate200 (s : String) : String :=
  if s.length > 200 then (⟨s.data.take 200⟩ : String) ++ "..." else ⟨s.data.take 200⟩

/-- `HypeScorer._get_sample_posts`: stable sort by engagement descending,
take `count`, project display fields. -/
def get_sample_posts (posts : List Post) (count : Nat) : List SamplePost :=
  match posts with
  | [] => []
  | _ :: _ =>
    let sorted := posts.mergeSort (fun a b => decide (b.engagement_score ≤ a.engagement_score))
    (sorted.take count).map (fun p =>
      { text := truncate200 p.text, source := p.source.getD "",
        engagement_score := p.engagement_score, url := p.url,
        timestamp := p.timestamp.getD "" })

/-- `HypeScorer._calculate_recency_multiplier`: `0.5 + ` the average of
`exp(-hours_ago / 12)` over posts with parsable timestamps; 1.0 when there
is no post or no parsable timestamp. -/
noncomputable def calculate_recency_multiplier (ext : ExtDeps) (now : ℚ)
    (posts : List Post) : ℝ :=
  match posts with
  | [] => 1
  | _ :: _ =>
    let ts := posts.filterMap (postTime ext)
    match ts with
    | [] => 1
    | _ :: _ =>
      0.5 + (ts.map (fun t => Real.exp (-(((now - t : ℚ) : ℝ) / 12)))).sum / (ts.length : ℝ)

/-- `HypeScorer._apply_scoring_modifiers` (the six multiplicative
modifiers, in source order). -/
noncomputable def apply_scoring_modifiers (cfg : Config) (ext : ExtDeps) (now : ℚ)
    (base : ℝ) (posts : List Post) (vm : VolMetrics) (sd : SentimentData) : ℝ :=
  let s1 := if cfg.recency_boost then base * calculate_recency_multiplier ext now posts else base
  let platform_count := ((posts.map (fun p => p.source.getD "")).dedup).length
  let s2 := if cfg.cross_platform_bonus ∧ 1 < platform_count then
      s1 * (1 + ((platform_count : ℝ) - 1) * 0.15) else s1
  let avg_engagement : ℚ := (posts.map (fun p => p.engagement_score)).sum / (posts.length : ℚ)
  let s3 := if cfg.engagement_multiplier then
      s2 * (1 + min ((avg_engagement : ℝ) / 100) 0.5) else s2
  let s4 := s3 * (0.8 + sd.confidence * 0.4)
  let s5 := if 2 < vm.velocity_per_hour then
      s4 * (1 + min ((vm.velocity_per_hour : ℝ) / 10) 0.3) else s4
  if 1.5 < vm.spike then s5 * (1 + min (((vm.spike : ℝ) - 1) / 5) 0.25) else s5

/-- One element of the result list of `calculate_hype_scores`.
`timestampField` models the `'timestamp': datetime.now().isoformat()`
entry as the clock reading itself. -/
structure HypeResult where
  ticker : String
  hype_score : ℝ
  volume_score : ℝ
  sentiment_score : ℚ
  sentiment_confidence : ℝ
  mention_count : Nat
  timestampField : ℚ
  volume_metrics : VolMetrics
  sentiment_trend : String
  sentiment_trend_strength : ℚ
  keyword_sentiment : ℚ
  textblob_sentiment : ℚ
  platforms : List String
  platform_count : Nat
  sample_posts : List SamplePost
  rank : Nat := 0

/-- The `for i, result in enumerate(hype_results): result['rank'] = i + 1`
pass (1-based positions). -/
def assignRanksFrom : Nat → List HypeResult → List HypeResult
  | _, [] => []
  | i, r :: rs => { r with rank := i } :: assignRanksFrom (i + 1) rs

/-- The per-ticker result construction of `calculate_hype_scores` over the
filtered groups (the source computes the three score maps once before the
loop; recomputing the pure expressions per ticker is the same value). -/
noncomputable def hypeResultsOf (cfg : Config) (ext : ExtDeps) (now : ℚ)
    (filtered : List (String × List Post)) : List HypeResult :=
  filtered.filterMap (fun e =>
    let volume_score :=
      (alookup (calculate_comprehensive_volume_score cfg ext now filtered) e.1).getD 0
    let sd := (alookup (calculate_comprehensive_sentiment_score ext filtered) e.1).getD
      ⟨0, 0, 0, 0, 0, "neutral", 0, 0, 0⟩
    if sd.confidence < (cfg.min_sentiment_confidence : ℝ) then none
    else
      let base := volume_score * (cfg.volume_weight : ℝ) +
        (sd.sentiment_score : ℝ) * (cfg.sentiment_weight : ℝ)
      let vm := (alookup (get_volume_metrics cfg ext now filtered) e.1).getD
        ({ spike := 1 } : VolMetrics)
      some ({ ticker := e.1,
              hype_score := apply_scoring_modifiers cfg ext now base e.2 vm sd,
              volume_score := volume_score,
              sentiment_score := sd.sentiment_score,
              sentiment_confidence := sd.confidence,
              mention_count := e.2.length,
              timestampField := now,
              volume_metrics := vm,
              sentiment_trend := sd.trend,
              sentiment_trend_strength := sd.trend_strength,
              keyword_sentiment := sd.keyword_sentiment,
              textblob_sentiment := sd.textblob_sentiment,
              platforms := (e.2.map (fun p => p.source.getD "")).dedup,
              platform_count := ((e.2.map (fun p => p.source.getD "")).dedup).length,
              sample_posts := get_sample_posts e.2 3 } : HypeResult))

/-- `HypeScorer.calculate_hype_scores`: the orchestration entry point.
`now` is the wall clock (`datetime.now()`), threaded to every component
that reads it.  The `volume_metrics.get(ticker, {})` fallback is
unreachable (metrics are computed for exactly the filtered tickers); the
fallback record mirrors the `.get` defaults `_apply_scoring_modifiers`
would read off an empty dict. -/
noncomputable def calculate_hype_scores (cfg : Config) (ext : ExtDeps) (now : ℚ)
    (posts : List Post) : List HypeResult :=
  match posts with
  | [] => []
  | _ :: _ =>
    match extract_tickers_from_posts ext.known posts with
    | [] => []
    | _ :: _ =>
      match (extract_tickers_from_posts ext.known posts).filter
          (fun e => decide (cfg.min_mentions ≤ e.2.length)) with
      | [] => []
      | _ :: _ =>
        (assignRanksFrom 1 ((hypeResultsOf cfg ext now
            ((extract_tickers_from_posts ext.known posts).filter
              (fun e => decide (cfg.min_mentions ≤ e.2.length)))).mergeSort
          (fun a b => decide (b.hype_score ≤ a.hype_score)))).take cfg.top_n_tickers

/-! ### Concrete instances used by witnesses and counterexamples -/

/-- External dependencies where no timestamp parses and the TextBlob
signals are zero; `unescape` is the identity (which is how
`html.unescape` behaves on strings without `&`). -/
def extId : ExtDeps :=
  { unescape := id, parseTS := fun _ => none, polarity := fun _ => 0,
    subjectivity := fun _ => 0, known := [] }

/-- External dependencies where exactly the timestamp string `"t0"` parses,
to hour 0. -/
def extT0 : ExtDeps :=
  { unescape := id, parseTS := fun s => if s = "t0" then some 0 else none,
    polarity := fun _ => 0, subjectivity := fun _ => 0, known := [] }

/-- External dependencies where exactly the timestamp string `"tf"` parses,
to hour 12 (a post dated in the future of the concrete scan times used
below). -/
def extFuture : ExtDeps :=
  { unescape := id, parseTS := fun s => if s = "tf" then some 12 else none,
    polarity := fun _ => 0, subjectivity := fun _ => 0, known := [] }

/-- A concrete post mentioning `$GME`. -/
def gmePost : Post :=
  { text := "$GME ok", source := some "twitter", timestamp := some "t0" }

/-- The default configuration with the mention floor lowered to 1. -/
def gmeCfg : Config := { min_mentions := 1 }

/-- The tagged copy of `gmePost` stored under `"GME"`. -/
def gmeTagged : Post := tagPost gmePost "GME"

/-- The ticker grouping produced from `[gmePost]`. -/
def gmeGroup : List (String × List Post) := [("GME", [gmeTagged])]

/-- Zero out the embedded wall-clock timestamp field of a result (the one
output field the determinism claim sets aside). -/
def stripClock (r : HypeResult) : HypeResult := { r with timestampField := 0 }

/-! ## Helper lemmas -/

theorem occIdxFrom_pairwise (hay needle : List Char) (start : Nat) :
    (occIdxFrom hay needle start).Pairwise (fun a b => a < b) :=
  List.Pairwise.filter _ (List.pairwise_lt_range _)

theorem mem_occIdxFrom {hay needle : List Char} {start i : Nat} :
    i ∈ occIdxFrom hay needle start ↔
      i ≤ hay.length ∧ start ≤ i ∧ subMatchAt hay needle i = true := by
  simp only [occIdxFrom, List.mem_filter, List.mem_range, Bool.and_eq_true, decide_eq_true_eq,
    Nat.lt_succ_iff]

theorem occIdxFrom_cons {hay needle : List Char} {s pos : Nat} {rest : List Nat}
    (h : occIdxFrom hay needle s = pos :: rest) :
    s ≤ pos ∧ occIdxFrom hay needle (pos + 1) = rest := by
  have hmem : pos ∈ occIdxFrom hay needle s := by rw [h]; exact List.mem_cons_self _ _
  have hs : s ≤ pos := (mem_occIdxFrom.mp hmem).2.1
  refine ⟨hs, ?_⟩
  have hpw : (pos :: rest).Pairwise (fun a b => a < b) := h ▸ occIdxFrom_pairwise hay needle s
  have hgt : ∀ x ∈ rest, pos < x := (List.pairwise_cons.mp hpw).1
  have hsplit : occIdxFrom hay needle (pos + 1)
      = (occIdxFrom hay needle s).filter (fun i => decide (pos < i)) := by
    unfold occIdxFrom
    rw [List.filter_filter]
    refine List.filter_congr ?_
    intro x _
    have main : decide (pos + 1 ≤ x) = (decide (pos < x) && decide (s ≤ x)) := by
      rcases Nat.lt_or_ge x (pos + 1) with hx | hx
      · have h1 : decide (pos + 1 ≤ x) = false := by simp; omega
        have h2 : (decide (pos < x) : Bool) = false := by simp; omega
        simp [h1, h2]
      · have h1 : decide (pos + 1 ≤ x) = true := by simp; omega
        have h2 : (decide (pos < x) : Bool) = true := by simp; omega
        have h3 : (decide (s ≤ x) : Bool) = true := by simp; omega
        simp [h1, h2, h3]
    rcases Bool.eq_false_or_eq_true (subMatchAt hay needle x) with hm | hm <;>
      simp [hm, main]
  rw [hsplit, h]
  rw [List.filter_cons]
  simp only [decide_eq_true_eq, lt_irrefl, if_false]
  exact List.filter_eq_self.mpr (fun x hx => by simpa using hgt x hx)

theorem findAllLoopF_eq (hay needle : List Char) :
    ∀ (fuel start : Nat), (occIdxFrom hay needle start).length ≤ fuel →
      findAllLoopF hay needle fuel start = occIdxFrom hay needle start := by
  intro fuel
  induction fuel with
  | zero =>
    intro start h
    have hnil : occIdxFrom hay needle start = [] := List.length_eq_zero.mp (Nat.le_zero.mp h)
    simp [findAllLoopF, hnil]
  | succ n ih =>
    intro start h
    cases hocc : occIdxFrom hay needle start with
    | nil => simp [findAllLoopF, pyFind, hocc]
    | cons pos rest =>
      obtain ⟨_, hrest⟩ := occIdxFrom_cons hocc
      have hlen : rest.length ≤ n := by
        rw [hocc] at h
        simpa using Nat.lt_succ_iff.mp (Nat.lt_of_lt_of_le (Nat.lt_succ_self _) h)
      simp only [findAllLoopF, pyFind, hocc, List.head?]
      have := ih (pos + 1) (by rw [hrest]; exact hlen)
      rw [this, hrest]

theorem ticker_positions_eq (hay needle : List Char) :
    ticker_positions hay needle = occIdxFrom hay needle 0 := by
  refine findAllLoopF_eq hay needle (hay.length + 1) 0 ?_
  calc (occIdxFrom hay needle 0).length
      ≤ (List.range (hay.length + 1)).length := List.length_filter_le _ _
    _ = hay.length + 1 := List.length_range _

theorem pyContains_false_iff {hay needle : List Char} :
    pyContains hay needle = false ↔ occIdxFrom hay needle 0 = [] := by
  unfold pyContains pyFind
  cases h : occIdxFrom hay needle 0 <;> simp [h]

theorem ticker_contexts_of_post_length (ticker : String) (p : Post) :
    (ticker_contexts_of_post ticker p).length
      = occurrenceCount (pyUpper p.text.data) (pyUpper ticker.data) := by
  unfold ticker_contexts_of_post occurrenceCount
  rcases Bool.eq_false_or_eq_true (pyContains (pyUpper p.text.data) (pyUpper ticker.data))
    with hc | hc
  · simp [hc, ticker_positions_eq]
  · have hnil := pyContains_false_iff.mp hc
    simp [hc, hnil]

theorem get_ticker_context_length (posts : List Post) (ticker : String) (w : Nat) :
    (get_ticker_context posts ticker w).length
      = (posts.filter (fun p => pyContains (pyUpper p.text.data) ticker.data)).length := by
  induction posts with
  | nil => rfl
  | cons p ps ih =>
    rw [get_ticker_context]
    simp only [List.filter_cons]
    rcases Bool.eq_false_or_eq_true (pyContains (pyUpper p.text.data) ticker.data) with hc | hc
    · have hsome : ∃ pos, pyFind (pyUpper p.text.data) ticker.data 0 = some pos := by
        unfold pyContains at hc
        exact Option.isSome_iff_exists.mp hc
      obtain ⟨pos, hpos⟩ := hsome
      simp [hc, hpos, ih]
    · simp [hc, ih]

/-! ## Claim C1 -/

/-- C1, counterexample: for the post `"AAA BUY AAA"`, the ticker `"AAA"`
occurs twice, but `get_ticker_context` (the `contextWindow(posts, ticker,
windowChars)` operation of the spec) returns a single slice — it uses one
`find` call, so a post containing the ticker k times contributes one
context, not k. -/
theorem get_ticker_context_first_occurrence_only :
    (get_ticker_context [{ text := "AAA BUY AAA" }] "AAA" 50).length = 1 ∧
    occurrenceCount (pyUpper ("AAA BUY AAA").data) (pyUpper "AAA".data) = 2 := by
  decide

/-- C1, amended: the per-occurrence behaviour the spec describes holds for
the context extraction embedded in the sentiment scorer
(`calculate_ticker_context_sentiment`): each post contributes exactly one
slice per occurrence of the (uppercased) ticker in its uppercased text.
The parser's `get_ticker_context`, by contrast, contributes exactly one
slice per post whose uppercased text contains the ticker, taken at the
first occurrence only. -/
theorem context_window_occurrence_counts :
    (∀ (ticker : String) (p : Post),
       (ticker_contexts_of_post ticker p).length
         = occurrenceCount (pyUpper p.text.data) (pyUpper ticker.data)) ∧
    (∀ (posts : List Post) (ticker : String) (w : Nat),
       (get_ticker_context posts ticker w).length
         = (posts.filter (fun p => pyContains (pyUpper p.text.data) ticker.data)).length) :=
  ⟨ticker_contexts_of_post_length, get_ticker_context_length⟩

/-! ## Claim C10 -/

theorem toNat_ofNat_of_le (n : Nat) (h : n ≤ 1000) : (Char.ofNat n).toNat = n := by
  unfold Char.ofNat
  rw [dif_pos (Or.inl (by omega))]
  rfl

theorem pyToUpper_upperAZ_of_alpha {d : Char} (h : isAlphaChar (pyToUpper d) = true) :
    isUpperAZ (pyToUpper d) = true := by
  unfold pyToUpper at *
  rcases Bool.eq_false_or_eq_true (isLowerAZ d) with hl | hl
  · rw [if_pos hl] at h ⊢
    have hd : 97 ≤ d.toNat ∧ d.toNat ≤ 122 := by
      have h' := hl
      unfold isLowerAZ at h'
      simpa using h'
    have hv : (Char.ofNat (d.toNat - 32)).toNat = d.toNat - 32 :=
      toNat_ofNat_of_le _ (by omega)
    unfold isUpperAZ
    simp only [hv, Bool.and_eq_true, decide_eq_true_eq]
    omega
  · rw [if_neg (by simp [hl])] at h ⊢
    unfold isAlphaChar at h
    simpa [hl] using h

theorem clean_ticker_chars (t : String) :
    ∀ c ∈ (clean_ticker t).data, ∃ d, c = pyToUpper d := by
  intro c hc
  unfold clean_ticker at hc
  by_cases ht : t = ""
  · rw [if_pos ht] at hc
    simp at hc
  · rw [if_neg ht] at hc
    have hsub : c ∈ pyUpper (pyStrip t.data) := by
      have base : ∀ x ∈ (pyUpper (pyStrip t.data)).dropWhile (fun c => c == '$'),
          x ∈ pyUpper (pyStrip t.data) :=
        fun x hx => (List.dropWhile_sublist _).mem hx
      refine base c ?_
      unfold cleanTickerCore at hc
      cases hfind : exchange_suffixes.find?
          (fun suf => suf.data.isSuffixOf
            ((pyUpper (pyStrip t.data)).dropWhile (fun c => c == '$'))) with
      | none =>
        rw [hfind] at hc
        exact hc
      | some suf =>
        rw [hfind] at hc
        exact List.mem_of_mem_take hc
    obtain ⟨d, _, hd⟩ := List.mem_map.mp hsub
    exact ⟨d, hd.symm⟩

theorem is_valid_ticker_props {known : List String} {t : String}
    (h : is_valid_ticker known t = true) :
    2 ≤ t.length ∧ t.length ≤ 5 ∧ (∀ c ∈ t.data, isAlphaChar c = true) ∧
      t ∉ exclude_words ∧ t ∉ common_false_positives := by
  unfold is_valid_ticker at h
  split_ifs at h with h1 h2 h3 h4 h5 h6
  all_goals try simp at h
  all_goals
    simp only [Bool.or_eq_true, decide_eq_true_eq, not_or] at h2
  all_goals
    refine ⟨by omega, by omega, ?_, h4, h5⟩
  all_goals
    intro c hc
  all_goals
    have hall : t.data.all isAlphaChar = true := by
      rcases Bool.eq_false_or_eq_true (t.data.all isAlphaChar) with ha | ha
      · exact ha
      · exact absurd (by simp [ha]) h3
  all_goals
    exact List.all_eq_true.mp hall c hc

/-- C10: every list returned by `extract_tickers_from_text` is
duplicate-free; every element passes `is_valid_ticker` (so it has 2 to 5
characters, all alphabetic, and is in neither static exclusion table) and
consists of uppercase `A`–`Z` characters only; empty text yields the empty
list. -/
theorem extract_tickers_from_text_valid (known : List String) (text : String) :
    (extract_tickers_from_text known text).Nodup ∧
    (∀ t ∈ extract_tickers_from_text known text,
       is_valid_ticker known t = true ∧ 2 ≤ t.length ∧ t.length ≤ 5 ∧
       t ∉ exclude_words ∧ t ∉ common_false_positives ∧
       ∀ c ∈ t.data, isUpperAZ c = true) ∧
    extract_tickers_from_text known "" = [] := by
  refine ⟨?_, ?_, by simp [extract_tickers_from_text]⟩
  · unfold extract_tickers_from_text
    split
    · exact List.nodup_nil
    · exact List.nodup_dedup _
  · intro t htmem
    unfold extract_tickers_from_text at htmem
    split at htmem
    · simp at htmem
    · have h1 := List.mem_dedup.mp htmem
      have h2 : is_valid_ticker known t = true := List.of_mem_filter h1
      have h3 := List.mem_of_mem_filter h1
      obtain ⟨s, _, hs⟩ := List.mem_map.mp h3
      obtain ⟨hl2, hl5, halpha, hex, hfp⟩ := is_valid_ticker_props h2
      refine ⟨h2, hl2, hl5, hex, hfp, ?_⟩
      intro c hc
      obtain ⟨d, hd⟩ := clean_ticker_chars s c (by rw [hs]; exact hc)
      have ha : isAlphaChar c = true := halpha c hc
      rw [hd] at ha ⊢
      exact pyToUpper_upperAZ_of_alpha ha

/-! ## Claim C5 -/

theorem foldl_max_le_init {α : Type} [LinearOrder α] :
    ∀ (xs : List α) (x : α), x ≤ xs.foldl max x
  | [], x => le_refl x
  | y :: ys, x => le_trans (le_max_left x y) (foldl_max_le_init ys (max x y))

theorem mem_le_foldl_max {α : Type} [LinearOrder α] :
    ∀ (xs : List α) (x v : α), v ∈ xs → v ≤ xs.foldl max x
  | y :: ys, x, v, hv => by
    rcases List.mem_cons.mp hv with h | h
    · subst h
      exact le_trans (le_max_right x v) (foldl_max_le_init ys _)
    · exact mem_le_foldl_max ys (max x y) v h

theorem foldl_min_init_le {α : Type} [LinearOrder α] :
    ∀ (xs : List α) (x : α), xs.foldl min x ≤ x
  | [], x => le_refl x
  | y :: ys, x => le_trans (foldl_min_init_le ys (min x y)) (min_le_left x y)

theorem foldl_min_le_mem {α : Type} [LinearOrder α] :
    ∀ (xs : List α) (x v : α), v ∈ xs → xs.foldl min x ≤ v
  | y :: ys, x, v, hv => by
    rcases List.mem_cons.mp hv with h | h
    · subst h
      exact le_trans (foldl_min_init_le ys _) (min_le_right x v)
    · exact foldl_min_le_mem ys (min x y) v h

theorem le_pyMax {α : Type} [LinearOrder α] {l : List α} {v : α} (hv : v ∈ l) (d : α) :
    v ≤ pyMax l d := by
  cases l with
  | nil => simp at hv
  | cons x xs =>
    rcases List.mem_cons.mp hv with h | h
    · subst h; exact foldl_max_le_init xs v
    · exact mem_le_foldl_max xs x v h

theorem pyMin_le {α : Type} [LinearOrder α] {l : List α} {v : α} (hv : v ∈ l) (d : α) :
    pyMin l d ≤ v := by
  cases l with
  | nil => simp at hv
  | cons x xs =>
    rcases List.mem_cons.mp hv with h | h
    · subst h; exact foldl_min_init_le xs v
    · exact foldl_min_le_mem xs x v h

theorem foldl_max_mem {α : Type} [LinearOrder α] :
    ∀ (xs : List α) (x : α), xs.foldl max x = x ∨ xs.foldl max x ∈ xs
  | [], x => Or.inl rfl
  | y :: ys, x => by
    rcases foldl_max_mem ys (max x y) with h | h
    · rcases max_choice x y with hm | hm
      · exact Or.inl (by rw [List.foldl_cons, h, hm])
      · refine Or.inr ?_
        rw [List.foldl_cons, h, hm]
        exact List.mem_cons_self y ys
    · refine Or.inr ?_
      rw [List.foldl_cons]
      exact List.mem_cons_of_mem y h

theorem foldl_min_mem {α : Type} [LinearOrder α] :
    ∀ (xs : List α) (x : α), xs.foldl min x = x ∨ xs.foldl min x ∈ xs
  | [], x => Or.inl rfl
  | y :: ys, x => by
    rcases foldl_min_mem ys (min x y) with h | h
    · rcases min_choice x y with hm | hm
      · exact Or.inl (by rw [List.foldl_cons, h, hm])
      · refine Or.inr ?_
        rw [List.foldl_cons, h, hm]
        exact List.mem_cons_self y ys
    · refine Or.inr ?_
      rw [List.foldl_cons]
      exact List.mem_cons_of_mem y h

theorem pyMax_mem {α : Type} [LinearOrder α] {l : List α} (h : l ≠ []) (d : α) :
    pyMax l d ∈ l := by
  cases l with
  | nil => exact absurd rfl h
  | cons x xs =>
    rcases foldl_max_mem xs x with hm | hm
    · rw [pyMax, hm]; exact List.mem_cons_self x xs
    · exact List.mem_cons_of_mem x hm

theorem pyMin_mem {α : Type} [LinearOrder α] {l : List α} (h : l ≠ []) (d : α) :
    pyMin l d ∈ l := by
  cases l with
  | nil => exact absurd rfl h
  | cons x xs =>
    rcases foldl_min_mem xs x with hm | hm
    · rw [pyMin, hm]; exact List.mem_cons_self x xs
    · exact List.mem_cons_of_mem x hm

/-- C5: `normalize_scores` maps every entry into [0,1]; when all input
values tie, every output value is exactly 1 (the divide-by-zero branch is
never reached); the empty map yields the empty map. -/
theorem normalize_scores_props {α : Type} [LinearOrderedField α]
    (scores : List (String × α)) :
    (∀ e ∈ normalize_scores scores, 0 ≤ e.2 ∧ e.2 ≤ 1) ∧
    ((∀ e ∈ scores, ∀ f ∈ scores, e.2 = f.2) → ∀ e ∈ normalize_scores scores, e.2 = 1) ∧
    normalize_scores ([] : List (String × α)) = [] := by
  refine ⟨?_, ?_, rfl⟩
  · intro e he
    cases scores with
    | nil => simp [normalize_scores] at he
    | cons a l =>
      rw [normalize_scores] at he
      by_cases heq : pyMax ((a :: l).map (fun e => e.2)) 0 = pyMin ((a :: l).map (fun e => e.2)) 0
      · rw [if_pos heq] at he
        obtain ⟨f, _, hf⟩ := List.mem_map.mp he
        rw [← hf]
        norm_num
      · rw [if_neg heq] at he
        obtain ⟨f, hfmem, hf⟩ := List.mem_map.mp he
        have hvmem : f.2 ∈ (a :: l).map (fun e => e.2) := List.mem_map_of_mem _ hfmem
        have hmax : f.2 ≤ pyMax ((a :: l).map (fun e => e.2)) 0 := le_pyMax hvmem 0
        have hmin : pyMin ((a :: l).map (fun e => e.2)) 0 ≤ f.2 := pyMin_le hvmem 0
        have hlt : pyMin ((a :: l).map (fun e => e.2)) 0
            < pyMax ((a :: l).map (fun e => e.2)) 0 :=
          lt_of_le_of_ne (le_trans hmin hmax) (Ne.symm heq)
        rw [← hf]
        constructor
        · exact div_nonneg (by linarith) (by linarith)
        · rw [div_le_one (by linarith)]
          linarith
  · intro hall e he
    cases scores with
    | nil => simp [normalize_scores] at he
    | cons a l =>
      rw [normalize_scores] at he
      have hmaxmem := @pyMax_mem _ _ ((a :: l).map (fun e => e.2)) (by simp) 0
      have hminmem := @pyMin_mem _ _ ((a :: l).map (fun e => e.2)) (by simp) 0
      obtain ⟨fx, hfx, hfx2⟩ := List.mem_map.mp hmaxmem
      obtain ⟨fn, hfn, hfn2⟩ := List.mem_map.mp hminmem
      have heq : pyMax ((a :: l).map (fun e => e.2)) 0 = pyMin ((a :: l).map (fun e => e.2)) 0 := by
        rw [← hfx2, ← hfn2]
        exact hall fx hfx fn hfn
      rw [if_pos heq] at he
      obtain ⟨f, _, hf⟩ := List.mem_map.mp he
      rw [← hf]

/-- C5 witness: a concrete two-entry map; the entry `("B", 1)` produced by
`normalize_scores [("A", 3), ("B", 7)]` lies in [0,1]. -/
theorem normalize_scores_w : 0 ≤ (("B", (1 : ℚ))).2 ∧ (("B", (1 : ℚ))).2 ≤ 1 :=
  (normalize_scores_props [("A", (3 : ℚ)), ("B", 7)]).1 ("B", 1)
    (by norm_num [normalize_scores, pyMax, pyMin])

/-- C10 witness: `"GME"` extracted from `"$GME ok"` passes validation. -/
theorem extract_tickers_from_text_valid_w : is_valid_ticker [] "GME" = true :=
  ((extract_tickers_from_text_valid [] "$GME ok").2.1 "GME" (by decide)).1

/-! ## Claim C3 -/

theorem pyMax2_eq (a b : ℚ) : pyMax2 a b = max a b := by
  unfold pyMax2
  split_ifs with h
  · exact (max_eq_left h).symm
  · exact (max_eq_right (le_of_not_le h)).symm

theorem pyMin2_eq (a b : ℚ) : pyMin2 a b = min a b := by
  unfold pyMin2
  split_ifs with h
  · exact (min_eq_left h).symm
  · exact (min_eq_right (le_of_not_le h)).symm

theorem scanKeywordsF_eq_sum (words : List String) :
    ∀ (fuel i : Nat), scanKeywordsF words fuel i = (matchedScoresF words fuel i).sum := by
  intro fuel
  induction fuel with
  | zero => intro i; rfl
  | succ n ih =>
    intro i
    rw [scanKeywordsF, matchedScoresF]
    by_cases h : i < words.length
    · rw [dif_pos h, dif_pos h]
      cases h2 : twoWordScore words i with
      | some sc => simp [List.sum_cons, ih]
      | none =>
        unfold keywordStepSingle
        cases h3 : lookupQ positive_keywords (words.get ⟨i, h⟩) with
        | some sc => simp [h3, List.sum_cons, ih]
        | none =>
          cases h4 : lookupQ negative_keywords (words.get ⟨i, h⟩) with
          | some sc => simp [h3, h4, List.sum_cons, ih]
          | none => simp [h3, h4, ih]
    · rw [dif_neg h, dif_neg h]
      rfl

/-- C3: the keyword sentiment always lies in [-5, 5]; for non-empty text
it equals the sum of the matched, context-modified keyword scores divided
by `max(1, wordCount/10)` and then clamped; empty text scores 0. -/
theorem keyword_sentiment_formula (ext : ExtDeps) (text : String) :
    (-5 ≤ calculate_keyword_sentiment ext text ∧ calculate_keyword_sentiment ext text ≤ 5) ∧
    (text ≠ "" →
      calculate_keyword_sentiment ext text
        = pyMax2 (-5) (pyMin2 5 ((matchedScores (kwWords ext text)).sum
            / pyMax2 1 (((kwWords ext text).length : ℚ) / 10)))) ∧
    (text = "" → calculate_keyword_sentiment ext text = 0) := by
  have formula : text ≠ "" →
      calculate_keyword_sentiment ext text
        = pyMax2 (-5) (pyMin2 5 ((matchedScores (kwWords ext text)).sum
            / pyMax2 1 (((kwWords ext text).length : ℚ) / 10))) := by
    intro ht
    unfold calculate_keyword_sentiment
    rw [if_neg ht]
    show (if (kwWords ext text).length = 0 then (0 : ℚ)
        else pyMax2 (-5) (pyMin2 5 (scanKeywords (kwWords ext text)
          / pyMax2 1 (((kwWords ext text).length : ℚ) / 10)))) = _
    by_cases hlen : (kwWords ext text).length = 0
    · have hnil : kwWords ext text = [] := List.length_eq_zero.mp hlen
      rw [hnil]
      norm_num [matchedScores, matchedScoresF, scanKeywords, scanKeywordsF, pyMax2, pyMin2]
    · rw [if_neg hlen, scanKeywords, matchedScores, scanKeywordsF_eq_sum]
  refine ⟨?_, formula, ?_⟩
  · by_cases ht : text = ""
    · simp [calculate_keyword_sentiment, ht]
    · rw [formula ht, pyMax2_eq, pyMin2_eq]
      constructor
      · exact le_max_left _ _
      · exact max_le (by norm_num) (min_le_left _ _)
  · intro ht
    simp [calculate_keyword_sentiment, ht]

/-- C3 witness: the formula instantiated at a concrete non-empty text. -/
theorem keyword_sentiment_formula_w :
    calculate_keyword_sentiment extId "not bullish at all"
      = pyMax2 (-5) (pyMin2 5 ((matchedScores (kwWords extId "not bullish at all")).sum
          / pyMax2 1 (((kwWords extId "not bullish at all").length : ℚ) / 10))) :=
  (keyword_sentiment_formula extId "not bullish at all").2.1 (by decide)

/-! ## Claim C4 -/

/-- C4: whenever a negator occurs in the ±3-token window around a keyword
match, `_apply_context_modifiers` sign-flips the base score and scales it
by 0.8 before the intensifier/diminisher multipliers are applied; in
particular (for any external dependencies whose HTML-unescape fixes the
entity-free string) `"not bullish at all"` scores non-positive. -/
theorem negator_flip (words : List String) (position : Nat) (base : ℚ)
    (h : ∃ w ∈ ctxWindow words position, negators.contains w = true)
    (ext : ExtDeps) (hu : ext.unescape "not bullish at all" = "not bullish at all") :
    apply_context_modifiers words position base
      = modMultipliers (ctxWindow words position) (-base * 0.8) ∧
    calculate_keyword_sentiment ext "not bullish at all" ≤ 0 := by
  constructor
  · have hneg : (ctxWindow words position).any (fun w => negators.contains w) = true := by
      obtain ⟨w, hw, hww⟩ := h
      exact List.any_eq_true.mpr ⟨w, hw, hww⟩
    unfold apply_context_modifiers
    show modMultipliers (ctxWindow words position)
        (if ((ctxWindow words position).any fun w => negators.contains w) = true
         then -base * 0.8 else base) = _
    rw [hneg, if_pos rfl]
  · have h1 : clean_basic ext "not bullish at all" = "not bullish at all" := by
      unfold clean_basic
      rw [if_neg (by decide), hu]
      decide
    have h2 : clean_social_media ext "not bullish at all" true = "not bullish at all" := by
      unfold clean_social_media
      rw [if_neg (by decide), h1]
      decide
    have h3 : normalize_financial_slang "not bullish at all" = "not bullish at all" := by decide
    have h4 : remove_noise_words "not bullish at all" = "not bullish at all" := by decide
    have h5 : preserve_financial_context ext "not bullish at all" = "not bullish at all" := by
      unfold preserve_financial_context
      rw [if_neg (by decide)]
      exact h2
    have h6 : clean_for_sentiment_analysis ext "not bullish at all" = "not bullish at all" := by
      unfold clean_for_sentiment_analysis
      rw [if_neg (by decide), h2, h3, h4, h5]
    have hw : kwWords ext "not bullish at all" = ["not", "bullish", "at", "all"] := by
      unfold kwWords
      rw [h6]
      decide
    have l1 : twoWordScore ["not", "bullish", "at", "all"] 0 = none := rfl
    have l2 : twoWordScore ["not", "bullish", "at", "all"] 1 = none := rfl
    have l3 : twoWordScore ["not", "bullish", "at", "all"] 2 = none := rfl
    have l4 : twoWordScore ["not", "bullish", "at", "all"] 3 = none := rfl
    have k0 : keywordStepSingle ["not", "bullish", "at", "all"] 0 "not" = 0 := rfl
    have k1 : keywordStepSingle ["not", "bullish", "at", "all"] 1 "bullish"
        = apply_context_modifiers ["not", "bullish", "at", "all"] 1 2.5 := rfl
    have k2 : keywordStepSingle ["not", "bullish", "at", "all"] 2 "at" = 0 := rfl
    have k3 : keywordStepSingle ["not", "bullish", "at", "all"] 3 "all" = 0 := rfl
    have a1 : ∀ b : ℚ, apply_context_modifiers ["not", "bullish", "at", "all"] 1 b
        = -b * 0.8 := fun b => rfl
    unfold calculate_keyword_sentiment
    rw [if_neg (by decide), hw]
    show pyMax2 (-5) (pyMin2 5 (scanKeywords ["not", "bullish", "at", "all"]
      / pyMax2 1 ((["not", "bullish", "at", "all"].length : ℚ) / 10))) ≤ 0
    unfold scanKeywords
    norm_num [scanKeywordsF, l1, l2, l3, l4, k0, k1, k2, k3, a1, pyMax2, pyMin2, List.get]

/-- C4 witness: the negator theorem instantiated at the window of
`"bullish"` inside `["not", "bullish", "at", "all"]` with base 5/2, and the
concrete external dependencies `extId`. -/
theorem negator_flip_w :
    apply_context_modifiers ["not", "bullish", "at", "all"] 1 (5/2)
      = modMultipliers (ctxWindow ["not", "bullish", "at", "all"] 1) (-(5/2) * 0.8) ∧
    calculate_keyword_sentiment extId "not bullish at all" ≤ 0 :=
  negator_flip ["not", "bullish", "at", "all"] 1 (5/2) (by decide) extId rfl

/-! ## Claim C6 -/

/-- C6, amended: the recency multiplier is 1.0 when no post has a parsable
timestamp; otherwise it is `0.5 +` the average of `exp(-hoursAgo/12)` over
the parsable posts, and it lies in (0.5, 1.5] provided no parsable
timestamp is in the future of the clock reading. -/
theorem recency_multiplier_props (ext : ExtDeps) (now : ℚ) (posts : List Post) :
    (posts.filterMap (postTime ext) = [] → calculate_recency_multiplier ext now posts = 1) ∧
    (posts.filterMap (postTime ext) ≠ [] →
       calculate_recency_multiplier ext now posts
         = 0.5 + ((posts.filterMap (postTime ext)).map
             (fun t => Real.exp (-(((now - t : ℚ) : ℝ) / 12)))).sum
             / ((posts.filterMap (postTime ext)).length : ℝ)) ∧
    (posts.filterMap (postTime ext) ≠ [] →
     (∀ t ∈ posts.filterMap (postTime ext), t ≤ now) →
       0.5 < calculate_recency_multiplier ext now posts
         ∧ calculate_recency_multiplier ext now posts ≤ 1.5) := by
  have hempty : posts.filterMap (postTime ext) = [] →
      calculate_recency_multiplier ext now posts = 1 := by
    intro h
    cases posts with
    | nil => rfl
    | cons p ps =>
      unfold calculate_recency_multiplier
      rw [h]
  have hf : posts.filterMap (postTime ext) ≠ [] →
      calculate_recency_multiplier ext now posts
        = 0.5 + ((posts.filterMap (postTime ext)).map
            (fun t => Real.exp (-(((now - t : ℚ) : ℝ) / 12)))).sum
            / ((posts.filterMap (postTime ext)).length : ℝ) := by
    intro h
    cases posts with
    | nil => exact absurd rfl h
    | cons p ps =>
      unfold calculate_recency_multiplier
      cases hts : (p :: ps).filterMap (postTime ext) with
      | nil => exact absurd hts h
      | cons t ts' => simp only [hts]
  refine ⟨hempty, hf, ?_⟩
  intro h hle
  rw [hf h]
  have hlen0 : 0 < (posts.filterMap (postTime ext)).length := List.length_pos.mpr h
  have hmapne : (posts.filterMap (postTime ext)).map
      (fun t => Real.exp (-(((now - t : ℚ) : ℝ) / 12))) ≠ [] := by
    simpa using h
  have hsum_pos : 0 < ((posts.filterMap (postTime ext)).map
      (fun t => Real.exp (-(((now - t : ℚ) : ℝ) / 12)))).sum := by
    refine List.sum_pos _ ?_ hmapne
    intro x hx
    obtain ⟨t, _, ht⟩ := List.mem_map.mp hx
    rw [← ht]
    exact Real.exp_pos _
  have hsum_le : ((posts.filterMap (postTime ext)).map
      (fun t => Real.exp (-(((now - t : ℚ) : ℝ) / 12)))).sum
      ≤ ((posts.filterMap (postTime ext)).length : ℝ) := by
    have := List.sum_le_card_nsmul ((posts.filterMap (postTime ext)).map
      (fun t => Real.exp (-(((now - t : ℚ) : ℝ) / 12)))) 1 ?_
    · simpa [nsmul_eq_mul] using this
    · intro x hx
      obtain ⟨t, htmem, ht⟩ := List.mem_map.mp hx
      rw [← ht, Real.exp_le_one_iff]
      have h1 : (t : ℝ) ≤ (now : ℝ) := by exact_mod_cast hle t htmem
      have h2 : (0 : ℝ) ≤ ((now - t : ℚ) : ℝ) := by push_cast; linarith
      linarith
  have hlenR : (0 : ℝ) < ((posts.filterMap (postTime ext)).length : ℝ) := by
    exact_mod_cast hlen0
  constructor
  · have : 0 < ((posts.filterMap (postTime ext)).map
        (fun t => Real.exp (-(((now - t : ℚ) : ℝ) / 12)))).sum
        / ((posts.filterMap (postTime ext)).length : ℝ) := div_pos hsum_pos hlenR
    linarith
  · have : ((posts.filterMap (postTime ext)).map
        (fun t => Real.exp (-(((now - t : ℚ) : ℝ) / 12)))).sum
        / ((posts.filterMap (postTime ext)).length : ℝ) ≤ 1 :=
      (div_le_one hlenR).mpr hsum_le
    linarith

/-- C6, counterexample: a post whose parsable timestamp lies 12 hours in
the future of the clock reading pushes the recency multiplier above 1.5
(it becomes `0.5 + exp 1`), so the multiplier does not always lie in
[0.5, 1.5]. -/
theorem recency_multiplier_above_bound :
    (1.5 : ℝ) < calculate_recency_multiplier extFuture 0 [{ timestamp := some "tf" }] := by
  unfold calculate_recency_multiplier
  show (1.5 : ℝ) < 0.5 + (([12] : List ℚ).map
    (fun t => Real.exp (-((((0 : ℚ) - t : ℚ) : ℝ) / 12)))).sum / (([12] : List ℚ).length : ℝ)
  have harg : -((((0 : ℚ) - 12 : ℚ)) : ℝ) / 12 = 1 := by push_cast; norm_num
  simp only [List.map_cons, List.map_nil, List.sum_cons, List.sum_nil, List.length_cons,
    List.length_nil, harg]
  have hexp : (1 : ℝ) < Real.exp 1 := Real.one_lt_exp_iff.mpr (by norm_num)
  push_cast
  linarith

/-- C6 witness: a post stamped at the clock reading itself gives a
multiplier in (0.5, 1.5]. -/
theorem recency_multiplier_props_w :
    0.5 < calculate_recency_multiplier extT0 0 [{ timestamp := some "t0" }]
      ∧ calculate_recency_multiplier extT0 0 [{ timestamp := some "t0" }] ≤ 1.5 :=
  (recency_multiplier_props extT0 0 [{ timestamp := some "t0" }]).2.2
    (by rw [show ([({ timestamp := some "t0" } : Post)]).filterMap (postTime extT0)
          = [(0 : ℚ)] from rfl]; simp)
    (by rw [show ([({ timestamp := some "t0" } : Post)]).filterMap (postTime extT0)
          = [(0 : ℚ)] from rfl]; simp)

/-! ## Claim C9 -/

theorem groupAdd_forall {R : String → Post → Prop} (m : List (String × List Post))
    (t : String) (q : Post) (hm : ∀ e ∈ m, ∀ x ∈ e.2, R e.1 x) (hq : R t q) :
    ∀ e ∈ groupAdd m t q, ∀ x ∈ e.2, R e.1 x := by
  intro e he x hx
  unfold groupAdd at he
  by_cases hc : m.any (fun e => e.1 == t) = true
  · rw [if_pos hc] at he
    obtain ⟨f, hf, hfe⟩ := List.mem_map.mp he
    by_cases hft : f.1 = t
    · rw [if_pos hft] at hfe
      rw [← hfe] at hx
      rcases List.mem_append.mp hx with hxf | hxq
      · have := hm f hf x hxf
        rw [← hfe]
        exact this
      · have hxq2 : x = q := List.mem_singleton.mp hxq
        rw [← hfe, hxq2]
        exact hft ▸ hq
    · rw [if_neg hft] at hfe
      rw [← hfe] at hx ⊢
      exact hm f hf x hx
  · rw [if_neg hc] at he
    rcases List.mem_append.mp he with hem | hes
    · exact hm e hem x hx
    · have he2 : e = (t, [q]) := List.mem_singleton.mp hes
      rw [he2] at hx ⊢
      have : x = q := List.mem_singleton.mp hx
      rw [this]
      exact hq

theorem foldl_groupAdd_forall {R : String → Post → Prop} :
    ∀ (ts : List String) (p : Post) (m : List (String × List Post)),
      (∀ e ∈ m, ∀ x ∈ e.2, R e.1 x) → (∀ t, R t (tagPost p t)) →
      ∀ e ∈ ts.foldl (fun m t => groupAdd m t (tagPost p t)) m, ∀ x ∈ e.2, R e.1 x
  | [], _, _, hm, _ => hm
  | t :: ts, p, m, hm, hp =>
    foldl_groupAdd_forall ts p (groupAdd m t (tagPost p t))
      (groupAdd_forall m t (tagPost p t) hm (hp t)) hp

theorem extract_posts_fold {R : String → Post → Prop} (known : List String) :
    ∀ (ps : List Post) (m : List (String × List Post)),
      (∀ e ∈ m, ∀ x ∈ e.2, R e.1 x) → (∀ p ∈ ps, ∀ t, R t (tagPost p t)) →
      ∀ e ∈ ps.foldl (fun m p =>
          (extract_tickers_from_text known p.text).foldl
            (fun m t => groupAdd m t (tagPost p t)) m) m,
        ∀ x ∈ e.2, R e.1 x
  | [], _, hm, _ => hm
  | p :: ps, m, hm, hps =>
    extract_posts_fold known ps _
      (foldl_groupAdd_forall (extract_tickers_from_text known p.text) p m hm
        (fun t => hps p (List.mem_cons_self p ps) t))
      (fun p' hp' => hps p' (List.mem_cons_of_mem p hp'))

/-- C9: every post record stored by the ticker-grouping operation is a
tagged copy of one of the caller's posts: it agrees with the source post on
every field and carries `mentioned_ticker = some ticker`.  (The embedding
is functional, so the caller's list itself is returned unchanged by
construction; the substantive content is that each stored record is a
field-preserving copy.) -/
theorem extract_tickers_from_posts_tagged (known : List String) (posts : List Post) :
    ∀ e ∈ extract_tickers_from_posts known posts, ∀ q ∈ e.2,
      ∃ p ∈ posts, q = tagPost p e.1 ∧ q.id = p.id ∧ q.text = p.text ∧
        q.source = p.source ∧ q.timestamp = p.timestamp ∧
        q.engagement_score = p.engagement_score ∧ q.author = p.author ∧ q.url = p.url ∧
        q.mentioned_ticker = some e.1 := by
  have base := @extract_posts_fold
    (fun t x => ∃ p ∈ posts, x = tagPost p t) known posts [] (by simp)
    (fun p hp t => ⟨p, hp, rfl⟩)
  intro e he q hq
  obtain ⟨p, hp, hpe⟩ := base e he q hq
  exact ⟨p, hp, hpe, by rw [hpe]; rfl, by rw [hpe]; rfl, by rw [hpe]; rfl, by rw [hpe]; rfl,
    by rw [hpe]; rfl, by rw [hpe]; rfl, by rw [hpe]; rfl, by rw [hpe]; rfl⟩

/-- C9 witness: the grouping of the single post `"$GME ok"` stores exactly
the tagged copy of that post under `"GME"`. -/
theorem extract_tickers_from_posts_tagged_w :
    ∃ p ∈ [gmePost], tagPost gmePost "GME" = tagPost p "GME" ∧
      (tagPost gmePost "GME").id = p.id ∧ (tagPost gmePost "GME").text = p.text ∧
      (tagPost gmePost "GME").source = p.source ∧
      (tagPost gmePost "GME").timestamp = p.timestamp ∧
      (tagPost gmePost "GME").engagement_score = p.engagement_score ∧
      (tagPost gmePost "GME").author = p.author ∧ (tagPost gmePost "GME").url = p.url ∧
      (tagPost gmePost "GME").mentioned_ticker = some "GME" :=
  extract_tickers_from_posts_tagged [] [gmePost] ("GME", [tagPost gmePost "GME"])
    (by rw [show extract_tickers_from_posts [] [gmePost]
          = [("GME", [tagPost gmePost "GME"])] from rfl]
        exact List.mem_singleton.mpr rfl)
    (tagPost gmePost "GME") (List.mem_singleton.mpr rfl)

/-! ## Claim C8 -/

theorem assignRanksFrom_length : ∀ (i : Nat) (l : List HypeResult),
    (assignRanksFrom i l).length = l.length
  | _, [] => rfl
  | i, r :: rs => by
    simp only [assignRanksFrom, List.length_cons]
    rw [assignRanksFrom_length (i + 1) rs]

theorem assignRanksFrom_get : ∀ (l : List HypeResult) (i j : Nat)
    (h : j < (assignRanksFrom i l).length),
    ((assignRanksFrom i l).get ⟨j, h⟩).rank = i + j
  | [], i, j, h => by simp [assignRanksFrom] at h
  | r :: rs, i, 0, h => rfl
  | r :: rs, i, j+1, h => by
    simp only [assignRanksFrom, List.get_cons_succ]
    rw [assignRanksFrom_get rs (i + 1) j (by
      simpa [assignRanksFrom, List.length_cons] using h)]
    omega

theorem assignRanksFrom_mem : ∀ (i : Nat) (l : List HypeResult) (b : HypeResult),
    b ∈ assignRanksFrom i l → ∃ a ∈ l, b.hype_score = a.hype_score
  | _, [], b, h => by simp [assignRanksFrom] at h
  | i, r :: rs, b, h => by
    simp only [assignRanksFrom] at h
    rcases List.mem_cons.mp h with h1 | h1
    · exact ⟨r, List.mem_cons_self r rs, by rw [h1]⟩
    · obtain ⟨a, ha, hab⟩ := assignRanksFrom_mem (i + 1) rs b h1
      exact ⟨a, List.mem_cons_of_mem r ha, hab⟩

theorem assignRanksFrom_sorted : ∀ (i : Nat) (l : List HypeResult),
    l.Pairwise (fun a b => b.hype_score ≤ a.hype_score) →
    (assignRanksFrom i l).Pairwise (fun a b => b.hype_score ≤ a.hype_score)
  | _, [], _ => by simp [assignRanksFrom]
  | i, r :: rs, h => by
    obtain ⟨hr, hrs⟩ := List.pairwise_cons.mp h
    simp only [assignRanksFrom]
    refine List.pairwise_cons.mpr ⟨?_, assignRanksFrom_sorted (i + 1) rs hrs⟩
    intro b hb
    obtain ⟨a, ha, hab⟩ := assignRanksFrom_mem (i + 1) rs b hb
    rw [hab]
    exact hr a ha

theorem mergeSort_hype_sorted (l : List HypeResult) :
    (l.mergeSort (fun a b => decide (b.hype_score ≤ a.hype_score))).Pairwise
      (fun a b => b.hype_score ≤ a.hype_score) := by
  have ht : ∀ a b c : HypeResult,
      (fun a b : HypeResult => decide (b.hype_score ≤ a.hype_score)) a b = true →
      (fun a b : HypeResult => decide (b.hype_score ≤ a.hype_score)) b c = true →
      (fun a b : HypeResult => decide (b.hype_score ≤ a.hype_score)) a c = true := by
    intro a b c hab hbc
    simp only [decide_eq_true_eq] at *
    exact le_trans hbc hab
  have htot : ∀ a b : HypeResult,
      ((fun a b : HypeResult => decide (b.hype_score ≤ a.hype_score)) a b
        || (fun a b : HypeResult => decide (b.hype_score ≤ a.hype_score)) b a) = true := by
    intro a b
    simp only [Bool.or_eq_true, decide_eq_true_eq]
    exact le_total b.hype_score a.hype_score
  exact (List.sorted_mergeSort ht htot l).imp (fun h => by simpa using h)

theorem calculate_hype_scores_shape (cfg : Config) (ext : ExtDeps) (now : ℚ)
    (posts : List Post) :
    ∃ results : List HypeResult,
      calculate_hype_scores cfg ext now posts
        = (assignRanksFrom 1 (results.mergeSort
            (fun a b => decide (b.hype_score ≤ a.hype_score)))).take cfg.top_n_tickers := by
  unfold calculate_hype_scores
  split
  · exact ⟨[], by simp [assignRanksFrom]⟩
  · split
    · exact ⟨[], by simp [assignRanksFrom]⟩
    · split
      · exact ⟨[], by simp [assignRanksFrom]⟩
      · exact ⟨_, rfl⟩


/-- C8: the result list of `calculate_hype_scores` has at most the
configured top-N entries, is sorted by hype score in non-increasing order,
and each entry's rank equals its 1-based position (so rank 1 has the
highest or tied-highest score). -/
theorem hype_results_ranked (cfg : Config) (ext : ExtDeps) (now : ℚ) (posts : List Post) :
    (calculate_hype_scores cfg ext now posts).length ≤ cfg.top_n_tickers ∧
    (calculate_hype_scores cfg ext now posts).Pairwise
      (fun a b => b.hype_score ≤ a.hype_score) ∧
    ∀ (i : Nat) (h : i < (calculate_hype_scores cfg ext now posts).length),
      ((calculate_hype_scores cfg ext now posts).get ⟨i, h⟩).rank = i + 1 := by
  obtain ⟨results, h⟩ := calculate_hype_scores_shape cfg ext now posts
  · rw [h]
    refine ⟨List.length_take_le _ _, ?_, ?_⟩
    · exact List.Pairwise.sublist (List.take_sublist _ _)
        (assignRanksFrom_sorted 1 _ (mergeSort_hype_sorted results))
    · intro i hi
      have hi2 : i < (assignRanksFrom 1 (results.mergeSort
          (fun a b => decide (b.hype_score ≤ a.hype_score)))).length := by
        have := hi
        rw [List.length_take] at this
        omega
      have hget : ((assignRanksFrom 1 (results.mergeSort
            (fun a b => decide (b.hype_score ≤ a.hype_score)))).take
              cfg.top_n_tickers).get ⟨i, hi⟩
          = (assignRanksFrom 1 (results.mergeSort
            (fun a b => decide (b.hype_score ≤ a.hype_score)))).get ⟨i, hi2⟩ := by
        simp [List.get_eq_getElem, List.getElem_take]
      rw [hget, assignRanksFrom_get]
      omega

/-! ## Claim C7 -/

theorem hypeResultsOf_nil_of_low_confidence (cfg : Config) (ext : ExtDeps) (now : ℚ)
    (filtered : List (String × List Post))
    (h : ∀ e ∈ filtered,
      ((alookup (calculate_comprehensive_sentiment_score ext filtered) e.1).getD
        ⟨0, 0, 0, 0, 0, "neutral", 0, 0, 0⟩).confidence
        < (cfg.min_sentiment_confidence : ℝ)) :
    hypeResultsOf cfg ext now filtered = [] := by
  unfold hypeResultsOf
  rw [List.filterMap_eq_nil_iff]
  intro e he
  dsimp only
  rw [if_pos (h e he)]

theorem calculate_hype_scores_cases (cfg : Config) (ext : ExtDeps) (now : ℚ)
    (posts : List Post) :
    calculate_hype_scores cfg ext now posts = [] ∨
    calculate_hype_scores cfg ext now posts
      = (assignRanksFrom 1 ((hypeResultsOf cfg ext now
          ((extract_tickers_from_posts ext.known posts).filter
            (fun e => decide (cfg.min_mentions ≤ e.2.length)))).mergeSort
        (fun a b => decide (b.hype_score ≤ a.hype_score)))).take cfg.top_n_tickers := by
  unfold calculate_hype_scores
  split
  · exact Or.inl rfl
  · split
    · exact Or.inl rfl
    · split
      · exact Or.inl rfl
      · exact Or.inr rfl

/-- C7: `calculate_hype_scores` returns the empty list whenever the input
post list is empty, no tickers are extracted, no group survives the
minimum-mention filter, or every surviving group's sentiment confidence
falls below the configured floor (the embedding is total, so no exception
can be raised on this path). -/
theorem hype_scores_empty (cfg : Config) (ext : ExtDeps) (now : ℚ) (posts : List Post)
    (h : posts = [] ∨ extract_tickers_from_posts ext.known posts = [] ∨
      (extract_tickers_from_posts ext.known posts).filter
        (fun e => decide (cfg.min_mentions ≤ e.2.length)) = [] ∨
      ∀ e ∈ (extract_tickers_from_posts ext.known posts).filter
          (fun e => decide (cfg.min_mentions ≤ e.2.length)),
        ((alookup (calculate_comprehensive_sentiment_score ext
            ((extract_tickers_from_posts ext.known posts).filter
              (fun e => decide (cfg.min_mentions ≤ e.2.length)))) e.1).getD
          ⟨0, 0, 0, 0, 0, "neutral", 0, 0, 0⟩).confidence
          < (cfg.min_sentiment_confidence : ℝ)) :
    calculate_hype_scores cfg ext now posts = [] := by
  rcases calculate_hype_scores_cases cfg ext now posts with hc | hc
  · exact hc
  · rw [hc]
    have hres : hypeResultsOf cfg ext now
        ((extract_tickers_from_posts ext.known posts).filter
          (fun e => decide (cfg.min_mentions ≤ e.2.length))) = [] := by
      rcases h with h | h | h | h
      · rw [h]
        rfl
      · rw [h]
        rfl
      · rw [h]
        rfl
      · exact hypeResultsOf_nil_of_low_confidence cfg ext now _ h
    rw [hres]
    simp [assignRanksFrom]

/-- C7 witness: the empty post list yields the empty result list. -/
theorem hype_scores_empty_w : calculate_hype_scores gmeCfg extT0 0 [] = [] :=
  hype_scores_empty gmeCfg extT0 0 [] (Or.inl rfl)

/-! ## Claim C2 -/

theorem post_time_weight_none {ext : ExtDeps} {p : Post} (h : postTime ext p = none)
    (cfg : Config) (now : ℚ) : post_time_weight cfg ext now p = 1 := by
  unfold post_time_weight
  rw [h]

theorem time_weighted_volume_now_free (cfg : Config) (ext : ExtDeps) (now₁ now₂ : ℚ)
    (groups : List (String × List Post))
    (h : ∀ e ∈ groups, ∀ q ∈ e.2, postTime ext q = none) :
    calculate_time_weighted_volume cfg ext now₁ groups
      = calculate_time_weighted_volume cfg ext now₂ groups := by
  unfold calculate_time_weighted_volume
  apply List.map_congr_left
  intro e he
  have : e.2.map (fun p => ((post_weighted_score cfg p : ℚ) : ℝ)
        * post_time_weight cfg ext now₁ p)
      = e.2.map (fun p => ((post_weighted_score cfg p : ℚ) : ℝ)
        * post_time_weight cfg ext now₂ p) := by
    apply List.map_congr_left
    intro p hp
    rw [post_time_weight_none (h e he p hp), post_time_weight_none (h e he p hp)]
  rw [this]

theorem velocity_score_now_free (ext : ExtDeps) (now₁ now₂ : ℚ)
    (groups : List (String × List Post))
    (h : ∀ e ∈ groups, ∀ q ∈ e.2, postTime ext q = none) :
    calculate_velocity_score ext now₁ groups = calculate_velocity_score ext now₂ groups := by
  unfold calculate_velocity_score
  apply List.map_congr_left
  intro e he
  have : e.2.filter (fun p =>
        match postTime ext p with
        | some t => decide (now₁ - t ≤ 4)
        | none => false)
      = e.2.filter (fun p =>
        match postTime ext p with
        | some t => decide (now₂ - t ≤ 4)
        | none => false) := by
    apply List.filter_congr
    intro p hp
    rw [h e he p hp]
  rw [this]

theorem comprehensive_volume_now_free (cfg : Config) (ext : ExtDeps) (now₁ now₂ : ℚ)
    (groups : List (String × List Post))
    (h : ∀ e ∈ groups, ∀ q ∈ e.2, postTime ext q = none) :
    calculate_comprehensive_volume_score cfg ext now₁ groups
      = calculate_comprehensive_volume_score cfg ext now₂ groups := by
  have h1 := time_weighted_volume_now_free cfg ext now₁ now₂ groups h
  have h2 := velocity_score_now_free ext now₁ now₂ groups h
  unfold calculate_comprehensive_volume_score
  simp only [h1, h2]

theorem volume_metrics_now_free (cfg : Config) (ext : ExtDeps) (now₁ now₂ : ℚ)
    (groups : List (String × List Post))
    (h : ∀ e ∈ groups, ∀ q ∈ e.2, postTime ext q = none) :
    get_volume_metrics cfg ext now₁ groups = get_volume_metrics cfg ext now₂ groups := by
  have h1 := time_weighted_volume_now_free cfg ext now₁ now₂ groups h
  have h2 := velocity_score_now_free ext now₁ now₂ groups h
  unfold get_volume_metrics
  simp only [h1, h2]

theorem recency_multiplier_none (ext : ExtDeps) (now : ℚ) (posts : List Post)
    (h : ∀ q ∈ posts, postTime ext q = none) :
    calculate_recency_multiplier ext now posts = 1 := by
  cases posts with
  | nil => rfl
  | cons p ps =>
    have hts : (p :: ps).filterMap (postTime ext) = [] :=
      List.filterMap_eq_nil_iff.mpr h
    simp only [calculate_recency_multiplier, hts]

theorem scoring_modifiers_now_free (cfg : Config) (ext : ExtDeps) (now₁ now₂ : ℚ)
    (base : ℝ) (posts : List Post) (vm : VolMetrics) (sd : SentimentData)
    (h : ∀ q ∈ posts, postTime ext q = none) :
    apply_scoring_modifiers cfg ext now₁ base posts vm sd
      = apply_scoring_modifiers cfg ext now₂ base posts vm sd := by
  have h1 := recency_multiplier_none ext now₁ posts h
  have h2 := recency_multiplier_none ext now₂ posts h
  unfold apply_scoring_modifiers
  simp only [h1, h2]

theorem hypeResultsOf_strip (cfg : Config) (ext : ExtDeps) (now₁ now₂ : ℚ)
    (filtered : List (String × List Post))
    (h : ∀ e ∈ filtered, ∀ q ∈ e.2, postTime ext q = none) :
    (hypeResultsOf cfg ext now₁ filtered).map stripClock
      = (hypeResultsOf cfg ext now₂ filtered).map stripClock := by
  have hv := comprehensive_volume_now_free cfg ext now₁ now₂ filtered h
  have hm := volume_metrics_now_free cfg ext now₁ now₂ filtered h
  unfold hypeResultsOf
  rw [List.map_filterMap, List.map_filterMap]
  apply List.filterMap_congr
  intro e he
  have hmods : ∀ (b : ℝ) (vm : VolMetrics) (sd : SentimentData),
      apply_scoring_modifiers cfg ext now₁ b e.2 vm sd
        = apply_scoring_modifiers cfg ext now₂ b e.2 vm sd :=
    fun b vm sd => scoring_modifiers_now_free cfg ext now₁ now₂ b e.2 vm sd (h e he)
  dsimp only
  simp only [hv, hm, hmods]
  split
  · rfl
  · rfl

theorem assignRanksFrom_map_strip : ∀ (i : Nat) (l : List HypeResult),
    (assignRanksFrom i l).map stripClock = assignRanksFrom i (l.map stripClock)
  | _, [] => rfl
  | i, r :: rs => by
    simp only [assignRanksFrom, List.map_cons]
    exact congrArg₂ List.cons rfl (assignRanksFrom_map_strip (i + 1) rs)

theorem mergeSort_map_strip (l : List HypeResult) :
    (l.mergeSort (fun a b => decide (b.hype_score ≤ a.hype_score))).map stripClock
      = (l.map stripClock).mergeSort (fun a b => decide (b.hype_score ≤ a.hype_score)) :=
  List.map_mergeSort (fun _ _ _ _ => rfl)

/-- C2, amended: for a post list in which no post carries a parsable
timestamp, the output of `calculate_hype_scores` is independent of the
wall-clock reading except for the embedded timestamp field: the results at
any two clock readings agree after that field is cleared.  (The
unconditional claim is refuted by `hype_scores_clock_sensitive`: with a
parsable timestamp, the recency and time-decay modifiers read the clock,
so two calls at different wall-clock instants return different scores for
the same `posts` and `config`.) -/
theorem calculate_hype_scores_eq (cfg : Config) (ext : ExtDeps) (now : ℚ)
    (posts : List Post) :
    calculate_hype_scores cfg ext now posts
      = (assignRanksFrom 1 ((hypeResultsOf cfg ext now
          ((extract_tickers_from_posts ext.known posts).filter
            (fun e => decide (cfg.min_mentions ≤ e.2.length)))).mergeSort
        (fun a b => decide (b.hype_score ≤ a.hype_score)))).take cfg.top_n_tickers := by
  unfold calculate_hype_scores
  split
  · have hE : extract_tickers_from_posts ext.known [] = [] := rfl
    simp [hypeResultsOf, assignRanksFrom, hE]
  · split
    · rename_i heq
      rw [heq]
      simp [hypeResultsOf, assignRanksFrom]
    · split
      · rename_i heq
        rw [heq]
        simp [hypeResultsOf, assignRanksFrom]
      · rfl

theorem hype_scores_clock_invariant (cfg : Config) (ext : ExtDeps) (posts : List Post)
    (now₁ now₂ : ℚ) (h : ∀ p ∈ posts, postTime ext p = none) :
    (calculate_hype_scores cfg ext now₁ posts).map stripClock
      = (calculate_hype_scores cfg ext now₂ posts).map stripClock := by
  have hg : ∀ e ∈ (extract_tickers_from_posts ext.known posts).filter
      (fun e => decide (cfg.min_mentions ≤ e.2.length)), ∀ q ∈ e.2,
      postTime ext q = none := by
    intro e he q hq
    have base := @extract_posts_fold (fun _ x => postTime ext x = none) ext.known posts []
      (by simp)
      (fun p hp t => by
        show postTime ext (tagPost p t) = none
        have hpp : postTime ext (tagPost p t) = postTime ext p := rfl
        rw [hpp]
        exact h p hp)
    exact base e (List.mem_of_mem_filter he) q hq
  rw [calculate_hype_scores_eq cfg ext now₁ posts, calculate_hype_scores_eq cfg ext now₂ posts,
    List.map_take, List.map_take, assignRanksFrom_map_strip, assignRanksFrom_map_strip,
    mergeSort_map_strip, mergeSort_map_strip,
    hypeResultsOf_strip cfg ext now₁ now₂ _ hg]

theorem kw_gme : calculate_keyword_sentiment extT0 "$GME ok" = 0 := by
  have hw : kwWords extT0 "$GME ok" = ["$gme", "ok"] := rfl
  have hscan : scanKeywords ["$gme", "ok"] = 0 + (0 + 0) := rfl
  simp only [calculate_keyword_sentiment, hw, hscan]
  norm_num [pyMax2, pyMin2]

theorem pyStd_singleton (x : ℚ) : pyStd [x] = 0 := by
  unfold pyStd
  rw [if_pos]
  norm_num

theorem ctx_gme : calculate_ticker_context_sentiment extT0 [gmeTagged] "GME"
    = ⟨0, 1, 1, 1, 0, 0, 0, 0⟩ := by
  have h1 : ticker_contexts_of_post "GME" gmeTagged = ["$GME ok"] := rfl
  have h3 : analyze_text_sentiment extT0 "$GME ok" = (0, 0) := rfl
  have h4 : pyStd [(0 : ℚ)] = 0 := pyStd_singleton 0
  simp [calculate_ticker_context_sentiment, h1, h3, h4, kw_gme, CtxSentiment.mk.injEq]

theorem trend_gme : calculate_sentiment_trend extT0 [gmeTagged] "GME"
    = ⟨"neutral", 0, 0, 0, 0⟩ := by
  have ht : ([gmeTagged].filterMap (fun p =>
      match p.timestamp with
      | some s => if s = "" then none else (extT0.parseTS s).map (fun t => (t, p))
      | none => none)) = [((0 : ℚ), gmeTagged)] := rfl
  simp [calculate_sentiment_trend, ne_eq, ite_not, ht]

theorem sent_gme : calculate_comprehensive_sentiment_score extT0 [("GME", [gmeTagged])]
    = [("GME", ⟨0, 1, 1, 0, 0, "neutral", 0, 0, 0⟩)] := by
  have htext : gmeTagged.text = "$GME ok" := rfl
  have hsrc : gmeTagged.source.getD "unknown" = "twitter" := rfl
  have hlook : lookupQ sentiment_source_weights "twitter" = some (1.0 : ℚ) := rfl
  have hctx : calculate_ticker_context_sentiment extT0 [gmeTagged] "GME"
      = ⟨0, 1, 1, 1, 0, 0, 0, 0⟩ := ctx_gme
  have htr : calculate_sentiment_trend extT0 [gmeTagged] "GME"
      = ⟨"neutral", 0, 0, 0, 0⟩ := trend_gme
  simp [calculate_comprehensive_sentiment_score, htext, hsrc, hlook, hctx, htr,
    kw_gme, SentimentData.mk.injEq]

theorem normalize_scores_singleton {α : Type} [LinearOrderedField α] (t : String) (x : α) :
    normalize_scores [(t, x)] = [(t, 1)] := by
  simp [normalize_scores, pyMax, pyMin]

theorem volume_gme (now : ℚ) :
    calculate_comprehensive_volume_score gmeCfg extT0 now [("GME", [gmeTagged])]
      = [("GME", (1 : ℝ))] := by
  obtain ⟨vr, hr⟩ : ∃ v : ℚ, calculate_raw_volume [("GME", [gmeTagged])] = [("GME", v)] :=
    ⟨_, rfl⟩
  obtain ⟨vw, hw⟩ : ∃ v : ℚ, calculate_weighted_volume gmeCfg [("GME", [gmeTagged])]
      = [("GME", v)] := ⟨_, rfl⟩
  obtain ⟨vt, ht⟩ : ∃ v : ℝ, calculate_time_weighted_volume gmeCfg extT0 now
      [("GME", [gmeTagged])] = [("GME", v)] := ⟨_, rfl⟩
  obtain ⟨vv, hv⟩ : ∃ v : ℚ, calculate_velocity_score extT0 now [("GME", [gmeTagged])]
      = [("GME", v)] := ⟨_, rfl⟩
  obtain ⟨vs, hs⟩ : ∃ v : ℚ, calculate_spike_detection extT0 [("GME", [gmeTagged])]
      = [("GME", v)] := ⟨_, rfl⟩
  obtain ⟨vc, hc⟩ : ∃ v : ℚ, calculate_cross_platform_boost [("GME", [gmeTagged])]
      = [("GME", v)] ∧ v = 1 := ⟨_, rfl, by norm_num [gmeTagged]⟩
  simp only [calculate_comprehensive_volume_score, hr, hw, ht, hv, hs, hc.1, hc.2,
    normalize_scores_singleton, List.map_cons, List.map_nil]
  simp [alookup]
  norm_num

theorem vm_gme (now : ℚ) :
    ((alookup (get_volume_metrics gmeCfg extT0 now [("GME", [gmeTagged])]) "GME").getD
      ({ spike := 1 } : VolMetrics)).velocity_per_hour ≤ 1/4
  ∧ ((alookup (get_volume_metrics gmeCfg extT0 now [("GME", [gmeTagged])]) "GME").getD
      ({ spike := 1 } : VolMetrics)).spike = 0 := by
  obtain ⟨P, hv⟩ : ∃ P, calculate_velocity_score extT0 now [("GME", [gmeTagged])]
      = [("GME", ((([gmeTagged].filter P).length : ℚ)) / 4)] := ⟨_, rfl⟩
  have hs : calculate_spike_detection extT0 [("GME", [gmeTagged])] = [("GME", (0 : ℚ))] := rfl
  have hlen : ((([gmeTagged].filter P).length : ℚ)) ≤ 1 := by
    have := List.length_filter_le P [gmeTagged]
    simp only [List.length_singleton] at this
    exact_mod_cast this
  constructor
  · simp only [get_volume_metrics, hv, hs, List.map_cons, List.map_nil]
    simp [alookup]
    linarith
  · simp only [get_volume_metrics, hv, hs, List.map_cons, List.map_nil]
    simp [alookup]

theorem recency_gme_0 : calculate_recency_multiplier extT0 0 [gmeTagged] = 1.5 := by
  have hts : [gmeTagged].filterMap (postTime extT0) = [(0 : ℚ)] := rfl
  simp only [calculate_recency_multiplier, hts, List.map_cons, List.map_nil, List.sum_cons,
    List.sum_nil, List.length_cons, List.length_nil]
  norm_num [Real.exp_zero]

theorem recency_gme_12 : calculate_recency_multiplier extT0 12 [gmeTagged]
    = 0.5 + Real.exp (-1) := by
  have hts : [gmeTagged].filterMap (postTime extT0) = [(0 : ℚ)] := rfl
  simp only [calculate_recency_multiplier, hts, List.map_cons, List.map_nil, List.sum_cons,
    List.sum_nil, List.length_cons, List.length_nil]
  norm_num

theorem modifiers_gme (now : ℚ) (base : ℝ) (vm : VolMetrics) (sd : SentimentData)
    (hvel : vm.velocity_per_hour ≤ 1/4) (hsp : vm.spike = 0) (hconf : sd.confidence = 1) :
    apply_scoring_modifiers gmeCfg extT0 now base [gmeTagged] vm sd
      = base * calculate_recency_multiplier extT0 now [gmeTagged] * 1.2 := by
  have h2 : (([gmeTagged].map (fun p => p.source.getD "")).dedup).length = 1 := rfl
  have h3 : ([gmeTagged].map (fun p => p.engagement_score)).sum = 0 := by
    have : gmeTagged.engagement_score = 0 := rfl
    simp [this]
  have hvg : ¬(2 < vm.velocity_per_hour) := by
    intro hlt
    have : (2 : ℚ) ≤ 1/4 := le_trans (le_of_lt hlt) hvel
    norm_num at this
  have hmin : ((0:ℝ) ⊓ 0.5) = 0 := min_eq_left (by norm_num)
  have hq : ¬((1.5 : ℚ) < 0) := by norm_num
  unfold apply_scoring_modifiers
  simp only [h2, h3, hconf, hsp, List.length_singleton, zero_div, Rat.cast_zero,
    lt_self_iff_false, and_false, hvg, hq, if_false, hmin]
  norm_num [gmeCfg]

theorem hype_gme_eval (now : ℚ) :
    (calculate_hype_scores gmeCfg extT0 now [gmePost]).map (fun r => r.hype_score)
      = [(0.7 : ℝ) * calculate_recency_multiplier extT0 now [gmeTagged] * 1.2] := by
  rw [calculate_hype_scores_eq]
  have hF : (extract_tickers_from_posts extT0.known [gmePost]).filter
      (fun e => decide (gmeCfg.min_mentions ≤ e.2.length)) = [("GME", [gmeTagged])] := rfl
  rw [hF]
  have hsent : alookup (calculate_comprehensive_sentiment_score extT0 [("GME", [gmeTagged])])
      "GME" = some ⟨0, 1, 1, 0, 0, "neutral", 0, 0, 0⟩ := by
    rw [sent_gme]
    rfl
  have hvol : alookup (calculate_comprehensive_volume_score gmeCfg extT0 now
      [("GME", [gmeTagged])]) "GME" = some 1 := by
    rw [volume_gme]
    rfl
  have hcond : ¬((1 : ℝ) < (gmeCfg.min_sentiment_confidence : ℝ)) := by
    norm_num [gmeCfg]
  obtain ⟨hvel, hsp⟩ := vm_gme now
  unfold hypeResultsOf
  simp only [List.filterMap_cons, List.filterMap_nil, hsent, hvol, Option.getD_some]
  rw [if_neg hcond]
  rw [List.mergeSort_singleton]
  simp only [assignRanksFrom, List.take, List.map_cons, List.map_nil]
  rw [modifiers_gme now _ _ _ hvel hsp rfl]
  norm_num [gmeCfg]

/-- C2, counterexample: with a single post carrying a parsable timestamp,
the hype scores returned for the same `posts` and `config` at wall-clock
hour 0 and at wall-clock hour 12 differ (1.26 versus
0.84 * (0.5 + exp(-1)) ≈ 0.73): the output is not a function of the two
inputs alone even setting the embedded timestamp field aside. -/
theorem hype_scores_clock_sensitive :
    (calculate_hype_scores gmeCfg extT0 0 [gmePost]).map (fun r => r.hype_score)
      ≠ (calculate_hype_scores gmeCfg extT0 12 [gmePost]).map (fun r => r.hype_score) := by
  rw [hype_gme_eval 0, hype_gme_eval 12, recency_gme_0, recency_gme_12]
  intro h
  simp only [List.cons.injEq, and_true] at h
  have hlt : Real.exp (-1) < 1 := by
    rw [Real.exp_lt_one_iff]
    norm_num
  nlinarith [hlt]

/-- C2 witness: for a post whose timestamp string does not parse, the
results at clock readings 0 and 5 agree once the embedded timestamp field
is cleared. -/
theorem hype_scores_clock_invariant_w :
    (calculate_hype_scores gmeCfg extId 0 [gmePost]).map stripClock
      = (calculate_hype_scores gmeCfg extId 5 [gmePost]).map stripClock :=
  hype_scores_clock_invariant gmeCfg extId [gmePost] 0 5
    (fun p hp => by
      rw [List.mem_singleton.mp hp]
      rfl)
